import Mathlib

/-!
# Debounced key-matrix scan of `keyboard/stm32_f103_planck/matrix.c`

A shallow embedding of the debounce engine of `matrix.c` (the statics
`debouncing`, `matrix`, `matrix_debouncing` and the functions `matrix_init`,
`matrix_scan`, `matrix_is_on`, `matrix_get_row`), followed by theorems about it.

Modelling conventions.

* `MATRIX_ROWS`, `MATRIX_COLS` and `DEBOUNCE` are build-time constants that the
  file takes from headers; they are the fields of `Config`.  `DEBOUNCE` defaults
  to 5 as in the `#ifndef DEBOUNCE` block.
* `debouncing` is a `uint8_t`: every store of `DEBOUNCE` into it is written
  `DEBOUNCE % 256`.  The only arithmetic on it is `--debouncing` under the guard
  `if (debouncing)`, which cannot wrap.
* The arrays `matrix` and `matrix_debouncing` are maps from the row index to
  the row value (a natural number standing for a `matrix_row_t`).  The code only
  ever indexes them with `i < MATRIX_ROWS`; entries at larger indices are never
  written by the model and carry no meaning.
* The loops `for (uint8_t i = 0; i < MATRIX_ROWS; i++)` run their body for
  `i = 0, 1, ..., MATRIX_ROWS - 1` in this order (`for_rows`); the counter is a
  `uint8_t`, so a configuration has `MATRIX_ROWS ≤ 255`.
* The value that `read_cols()` returns while row `i` is selected is an input of
  the sweep: `cols i`.  The GPIO writes of `select_row` / `unselect_rows` and the
  waits, debug prints and LED blinks act on the pins and the clock only, never
  on the three statics, and are left out of the engine state.
* The pads are modelled separately (`Pins`, `read_cols`, `select_row`,
  `unselect_rows`, `init_cols`); `Hw` pairs the engine state with the pads, and
  `matrix_scan_hw` is `matrix_scan` with the pad writes and with `read_cols` as
  the source of the samples (`matrix_scan_hw_st`).
-/

namespace Planck

/-- Build-time configuration: the constants `MATRIX_ROWS`, `MATRIX_COLS` (from the
keyboard's headers) and `DEBOUNCE` (default 5, source lines 30-32). -/
structure Config where
  MATRIX_ROWS : Nat
  MATRIX_COLS : Nat
  DEBOUNCE : Nat := 5

/-- The three statics of `matrix.c` (source lines 33-37): the `uint8_t` countdown
`debouncing`, the stable buffer `matrix` and the pending buffer
`matrix_debouncing`. -/
structure State where
  debouncing : Nat
  matrix : Nat → Nat
  matrix_debouncing : Nat → Nat

/-- Array store `a[i] = v`. -/
def set_row (a : Nat → Nat) (i v : Nat) : Nat → Nat :=
  fun j => if j = i then v else a j

/-- The loop `for (uint8_t i = 0; i < n; i++) body(i)`: the body runs for
`i = 0, ..., n - 1`, in increasing order. -/
def for_rows (body : Nat → State → State) : Nat → State → State
  | 0, st => st
  | n + 1, st => body n (for_rows body n st)

/-- The state at program start, from the static initialisers:
`static uint8_t debouncing = DEBOUNCE;` and the two zero-filled arrays. -/
def initial_state (cfg : Config) : State :=
  { debouncing := cfg.DEBOUNCE % 256
    matrix := fun _ => 0
    matrix_debouncing := fun _ => 0 }

/-- Body of the loop of `matrix_init` (source lines 78-81):
`matrix[i] = 0; matrix_debouncing[i] = 0;`. -/
def init_row (i : Nat) (st : State) : State :=
  { st with
    matrix := set_row st.matrix i 0
    matrix_debouncing := set_row st.matrix_debouncing i 0 }

/-- The function `matrix_init` (source lines 71-88) on the engine state: the loop
zeroes both buffers.  The function holds no store to `debouncing`. -/
def matrix_init (cfg : Config) (st : State) : State :=
  for_rows init_row cfg.MATRIX_ROWS st

/-- Body of the first loop of `matrix_scan` (source lines 93-103) for row `i`,
with `cols i` the value read by `read_cols()`:
`if (matrix_debouncing[i] != cols) { matrix_debouncing[i] = cols; debouncing = DEBOUNCE; }`. -/
def scan_row (cfg : Config) (cols : Nat → Nat) (i : Nat) (st : State) : State :=
  if st.matrix_debouncing i ≠ cols i then
    { st with
      matrix_debouncing := set_row st.matrix_debouncing i (cols i)
      debouncing := cfg.DEBOUNCE % 256 }
  else st

/-- The first loop of `matrix_scan` (source lines 92-104): every row is sampled. -/
def scan_rows (cfg : Config) (cols : Nat → Nat) (st : State) : State :=
  for_rows (scan_row cfg cols) cfg.MATRIX_ROWS st

/-- Body of the copy loop of `matrix_scan` (source line 111):
`matrix[i] = matrix_debouncing[i];`. -/
def copy_row (i : Nat) (st : State) : State :=
  { st with matrix := set_row st.matrix i (st.matrix_debouncing i) }

/-- The end of `matrix_scan` (source lines 106-114):
`if (debouncing) { if (--debouncing) wait_ms(1); else copy loop }`. -/
def debounce_step (cfg : Config) (st : State) : State :=
  if st.debouncing ≠ 0 then
    let st1 := { st with debouncing := st.debouncing - 1 }
    if st1.debouncing ≠ 0 then st1
    else for_rows copy_row cfg.MATRIX_ROWS st1
  else st

/-- The function `matrix_scan` (source lines 90-117): the returned `uint8_t`
(always 1) and the state after the sweep. -/
def matrix_scan (cfg : Config) (cols : Nat → Nat) (st : State) : Nat × State :=
  (1, debounce_step cfg (scan_rows cfg cols st))

/-- The function `matrix_get_row` (source lines 125-129): `return matrix[row];`. -/
def matrix_get_row (st : State) (row : Nat) : Nat :=
  st.matrix row

/-- The function `matrix_is_on` (source lines 119-123):
`return (matrix[row] & ((matrix_row_t)1<<col));` converted to `bool`, that is,
compared with 0.  For `col` below the width of `matrix_row_t` the shift does
not overflow. -/
def matrix_is_on (st : State) (row col : Nat) : Bool :=
  (st.matrix row &&& (1 <<< col)) != 0

/-- The state after `n` calls of `matrix_scan` from `st`, the `k`-th call
(counted from 0) reading the raw samples `s k`. -/
def scans (cfg : Config) (s : Nat → Nat → Nat) : Nat → State → State
  | 0, st => st
  | n + 1, st => (matrix_scan cfg (s n) (scans cfg s n st)).2

/-- The configuration of the scenarios: 4 rows, 2 columns, debounce period `D`. -/
def scenario_cfg (D : Nat) : Config :=
  { MATRIX_ROWS := 4, MATRIX_COLS := 2, DEBOUNCE := D }

/-- A raw sample vector in which row `r` reads `v` and every other row reads 0. -/
def one_row (r v : Nat) : Nat → Nat :=
  fun i => if i = r then v else 0

/-- An engine state with both buffers zero and countdown `c`. -/
def zero_state (c : Nat) : State :=
  { debouncing := c, matrix := fun _ => 0, matrix_debouncing := fun _ => 0 }

/-- The samples of the bounce scenario: row 2 reads `0b01` in sweeps 1 and 2,
flips back to `0b00` in sweep 3 and reads `0b01` again from sweep 4 on (sweep
`k + 1` reads `bounce k`). -/
def bounce (k : Nat) : Nat → Nat :=
  if k = 2 then one_row 2 0 else one_row 2 1

/-- The engine states of a running program: the state at program start and
every state obtained from it by calls of `matrix_scan`, with arbitrary raw
samples, and of `matrix_init`, in any order. -/
inductive Reachable (cfg : Config) : State → Prop
  | start : Reachable cfg (initial_state cfg)
  | scan (cols : Nat → Nat) (st : State) :
      Reachable cfg st → Reachable cfg (matrix_scan cfg cols st).2
  | init (st : State) : Reachable cfg st → Reachable cfg (matrix_init cfg st)

/-- The reference debouncer, written from its description and not from the code:
`stable_0` is all zero, and `stable_n` is the `n`-th sample vector when `n ≥ D`
and the last `D` sample vectors `s_(n-D+1), ..., s_n` are equal (on the rows of
the matrix), and `stable_(n-1)` otherwise.  Sweep `k + 1` reads `s k`. -/
def reference_stable (cfg : Config) (s : Nat → Nat → Nat) : Nat → Nat → Nat
  | 0 => fun _ => 0
  | n + 1 =>
    if cfg.DEBOUNCE ≤ n + 1 ∧
        (∀ j, j < cfg.DEBOUNCE → ∀ r, r < cfg.MATRIX_ROWS → s (n - j) r = s n r)
    then s n
    else reference_stable cfg s n

/-! ### Pins

The GPIO interface of the HAL (`palSetPadMode`, `palClearPad`, `palSetPad`,
`palReadPad`) is outside `matrix.c`.  A pad is identified by its port and its
number; it has a mode and an output level.  What `palReadPad` returns is an
input of the program: it depends on the keys that are held down. -/

/-- The GPIO ports that `matrix.c` names. -/
inductive Port
  | GPIOA
  | GPIOB
  | GPIOC
  deriving DecidableEq

/-- The pad modes that `matrix.c` passes to `palSetPadMode`. -/
inductive PadMode
  | PAL_MODE_INPUT
  | PAL_MODE_INPUT_PULLUP
  | PAL_MODE_OUTPUT_PUSHPULL
  deriving DecidableEq

/-- The configuration of one pad: its mode and the level of its output latch
(`true` is high). -/
structure Pad where
  mode : PadMode
  level : Bool
  deriving DecidableEq

/-- The configuration of all pads. -/
abbrev Pins := Port → Nat → Pad

/-- The values `palReadPad(port, pad)` returns, for every pad. -/
abbrev PadLevels := Port → Nat → Nat

/-- The HAL constant `PAL_HIGH`, the logical value 1. -/
def PAL_HIGH : Nat := 1

/-- The HAL call `palSetPadMode(port, pad, mode)`: the pad gets the mode, nothing
else changes. -/
def palSetPadMode (pins : Pins) (port : Port) (pad : Nat) (mode : PadMode) : Pins :=
  fun p n => if p = port ∧ n = pad then { pins p n with mode := mode } else pins p n

/-- The HAL call `palClearPad(port, pad)`: the output level of the pad becomes
low, nothing else changes. -/
def palClearPad (pins : Pins) (port : Port) (pad : Nat) : Pins :=
  fun p n => if p = port ∧ n = pad then { pins p n with level := false } else pins p n

/-- The HAL call `palSetPad(port, pad)`: the output level of the pad becomes
high, nothing else changes. -/
def palSetPad (pins : Pins) (port : Port) (pad : Nat) : Pins :=
  fun p n => if p = port ∧ n = pad then { pins p n with level := true } else pins p n

/-- The function `init_cols` (source lines 143-157): the twelve column pads
become inputs with pull-up. -/
def init_cols (pins : Pins) : Pins :=
  let p1 := palSetPadMode pins .GPIOC 14 .PAL_MODE_INPUT_PULLUP
  let p2 := palSetPadMode p1 .GPIOC 15 .PAL_MODE_INPUT_PULLUP
  let p3 := palSetPadMode p2 .GPIOA 0 .PAL_MODE_INPUT_PULLUP
  let p4 := palSetPadMode p3 .GPIOA 1 .PAL_MODE_INPUT_PULLUP
  let p5 := palSetPadMode p4 .GPIOA 2 .PAL_MODE_INPUT_PULLUP
  let p6 := palSetPadMode p5 .GPIOA 3 .PAL_MODE_INPUT_PULLUP
  let p7 := palSetPadMode p6 .GPIOA 4 .PAL_MODE_INPUT_PULLUP
  let p8 := palSetPadMode p7 .GPIOA 5 .PAL_MODE_INPUT_PULLUP
  let p9 := palSetPadMode p8 .GPIOA 6 .PAL_MODE_INPUT_PULLUP
  let p10 := palSetPadMode p9 .GPIOA 7 .PAL_MODE_INPUT_PULLUP
  let p11 := palSetPadMode p10 .GPIOB 0 .PAL_MODE_INPUT_PULLUP
  palSetPadMode p11 .GPIOB 1 .PAL_MODE_INPUT_PULLUP

/-- The function `read_cols` (source lines 160-174): a pad that does not read
`PAL_HIGH` contributes its bit.  The result is returned as a `matrix_row_t`, an
unsigned type declared outside `matrix.c`; `row_bits` is its width. -/
def read_cols (row_bits : Nat) (lv : PadLevels) : Nat :=
  ((if lv .GPIOC 14 = PAL_HIGH then 0 else 1 <<< 0)
    ||| (if lv .GPIOC 15 = PAL_HIGH then 0 else 1 <<< 1)
    ||| (if lv .GPIOA 0 = PAL_HIGH then 0 else 1 <<< 2)
    ||| (if lv .GPIOA 1 = PAL_HIGH then 0 else 1 <<< 3)
    ||| (if lv .GPIOA 2 = PAL_HIGH then 0 else 1 <<< 4)
    ||| (if lv .GPIOA 3 = PAL_HIGH then 0 else 1 <<< 5)
    ||| (if lv .GPIOA 4 = PAL_HIGH then 0 else 1 <<< 6)
    ||| (if lv .GPIOA 5 = PAL_HIGH then 0 else 1 <<< 7)
    ||| (if lv .GPIOA 6 = PAL_HIGH then 0 else 1 <<< 8)
    ||| (if lv .GPIOA 7 = PAL_HIGH then 0 else 1 <<< 9)
    ||| (if lv .GPIOB 0 = PAL_HIGH then 0 else 1 <<< 10)
    ||| (if lv .GPIOB 1 = PAL_HIGH then 0 else 1 <<< 11)) % 2 ^ row_bits

/-- The function `unselect_rows` (source lines 178-184): the four row pads become
floating inputs. -/
def unselect_rows (pins : Pins) : Pins :=
  let p1 := palSetPadMode pins .GPIOB 13 .PAL_MODE_INPUT
  let p2 := palSetPadMode p1 .GPIOB 14 .PAL_MODE_INPUT
  let p3 := palSetPadMode p2 .GPIOB 15 .PAL_MODE_INPUT
  palSetPadMode p3 .GPIOA 8 .PAL_MODE_INPUT

/-- The function `select_row` (source lines 186-208): a `switch` with the cases
0, 1, 2, 3 and no default. -/
def select_row (row : Nat) (pins : Pins) : Pins :=
  match row with
  | 0 => palClearPad (palSetPadMode pins .GPIOB 13 .PAL_MODE_OUTPUT_PUSHPULL) .GPIOB 13
  | 1 => palClearPad (palSetPadMode pins .GPIOB 14 .PAL_MODE_OUTPUT_PUSHPULL) .GPIOB 14
  | 2 => palClearPad (palSetPadMode pins .GPIOB 15 .PAL_MODE_OUTPUT_PUSHPULL) .GPIOB 15
  | 3 => palClearPad (palSetPadMode pins .GPIOA 8 .PAL_MODE_OUTPUT_PUSHPULL) .GPIOA 8
  | _ => pins

/-- The pad of row `row`: B13, B14, B15, A8 for the rows 0, 1, 2, 3. -/
def row_pin (row : Nat) : Port × Nat :=
  match row with
  | 0 => (.GPIOB, 13)
  | 1 => (.GPIOB, 14)
  | 2 => (.GPIOB, 15)
  | _ => (.GPIOA, 8)

/-- The pad of column `col`, in the order C14, C15, A0, ..., A7, B0, B1 of the
columns 0, ..., 11. -/
def col_pin (col : Nat) : Port × Nat :=
  match col with
  | 0 => (.GPIOC, 14)
  | 1 => (.GPIOC, 15)
  | 10 => (.GPIOB, 0)
  | 11 => (.GPIOB, 1)
  | c => (.GPIOA, c - 2)

/-- The two boards of the `#ifdef` blocks of source lines 57-69; the generic
board has its LED on pad `GPIOC_LED` of port C, a constant of the board files. -/
inductive Board
  | GENERIC_STM32_F103 (GPIOC_LED : Nat)
  | MAPLEMINI_STM32_F103

/-- The statement `LED_ON()` (source lines 59 and 66). -/
def LED_ON (board : Board) (pins : Pins) : Pins :=
  match board with
  | .GENERIC_STM32_F103 led => palClearPad pins .GPIOC led
  | .MAPLEMINI_STM32_F103 => palSetPad pins .GPIOB 1

/-- The statement `LED_OFF()` (source lines 60 and 67). -/
def LED_OFF (board : Board) (pins : Pins) : Pins :=
  match board with
  | .GENERIC_STM32_F103 led => palSetPad pins .GPIOC led
  | .MAPLEMINI_STM32_F103 => palClearPad pins .GPIOB 1

/-- The program state with the pads: the engine state `st`, the pad
configuration `pins`, and a record `reads` of the pad configuration at every
call of `read_cols`, oldest first (the record is not program state; it is kept
to speak about the moments at which the columns are read). -/
structure Hw where
  st : State
  pins : Pins
  reads : List Pins

/-- The loop `for (uint8_t i = 0; i < n; i++) body(i)` on any state type. -/
def for_each_row {α : Type} (body : Nat → α → α) : Nat → α → α
  | 0, a => a
  | n + 1, a => body n (for_each_row body n a)

/-- Body of the first loop of `matrix_scan` with the pads (source lines 93-103):
`select_row(i)`, the wait, `read_cols()` on the levels `lv i` present while
row `i` is selected, the comparison of `scan_row`, then `unselect_rows()`. -/
def scan_row_hw (cfg : Config) (row_bits : Nat) (lv : Nat → PadLevels) (i : Nat)
    (h : Hw) : Hw :=
  let selected := select_row i h.pins
  { st := scan_row cfg (fun k => read_cols row_bits (lv k)) i h.st
    pins := unselect_rows selected
    reads := h.reads ++ [selected] }

/-- The function `matrix_scan` with the pads (source lines 90-117). -/
def matrix_scan_hw (cfg : Config) (row_bits : Nat) (lv : Nat → PadLevels) (h : Hw) :
    Nat × Hw :=
  let h1 := for_each_row (scan_row_hw cfg row_bits lv) cfg.MATRIX_ROWS h
  (1, { h1 with st := debounce_step cfg h1.st })

/-- The function `matrix_init` with the pads (source lines 71-88):
`unselect_rows()`, `init_cols()`, the zeroing loop, and the LED blink.  The
store to the flag `debug_matrix` of the debug module and the wait are left
out. -/
def matrix_init_hw (cfg : Config) (board : Board) (h : Hw) : Hw :=
  { h with
    st := matrix_init cfg h.st
    pins := LED_OFF board (LED_ON board (init_cols (unselect_rows h.pins))) }

/-- The engine states of a running program whose sweeps read the columns through
`read_cols`: as `Reachable`, with the raw sample of row `i` being
`read_cols()` on the levels `lv i`. -/
inductive ReachableRead (cfg : Config) (row_bits : Nat) : State → Prop
  | start : ReachableRead cfg row_bits (initial_state cfg)
  | scan (lv : Nat → PadLevels) (st : State) :
      ReachableRead cfg row_bits st →
      ReachableRead cfg row_bits
        (matrix_scan cfg (fun i => read_cols row_bits (lv i)) st).2
  | init (st : State) :
      ReachableRead cfg row_bits st → ReachableRead cfg row_bits (matrix_init cfg st)

/-- Pad levels in which exactly the listed pads of the columns read low; the
level of column pad `c` is low when `pressed c` holds. -/
def levels_of (pressed : Nat → Bool) : PadLevels :=
  fun port pad =>
    if (List.range 12).any (fun c => pressed c && decide (col_pin c = (port, pad)))
    then 0 else 1

/-- A pad configuration in which every pad is a floating input with a low
output latch. -/
def floating_pins : Pins :=
  fun _ _ => { mode := .PAL_MODE_INPUT, level := false }

/-! ## The row loops, one field at a time -/

theorem set_row_same (a : Nat → Nat) (i v : Nat) : set_row a i v i = v := by
  simp [set_row]

theorem set_row_other (a : Nat → Nat) (i v j : Nat) (h : j ≠ i) :
    set_row a i v j = a j := by
  simp [set_row, h]

theorem scan_row_matrix (cfg : Config) (cols : Nat → Nat) (i : Nat) (t : State) :
    (scan_row cfg cols i t).matrix = t.matrix := by
  unfold scan_row
  split <;> rfl

theorem scan_row_pending (cfg : Config) (cols : Nat → Nat) (i : Nat) (t : State) (j : Nat) :
    (scan_row cfg cols i t).matrix_debouncing j
      = if j = i then cols i else t.matrix_debouncing j := by
  unfold scan_row
  by_cases h : t.matrix_debouncing i ≠ cols i
  · rw [if_pos h]; rfl
  · rw [if_neg h]
    simp only [ne_eq, not_not] at h
    by_cases hj : j = i
    · rw [if_pos hj, hj, h]
    · rw [if_neg hj]

theorem scan_row_debouncing (cfg : Config) (cols : Nat → Nat) (i : Nat) (t : State) :
    (scan_row cfg cols i t).debouncing
      = if t.matrix_debouncing i ≠ cols i then cfg.DEBOUNCE % 256 else t.debouncing := by
  unfold scan_row
  split <;> rfl

/-- The sampling loop never writes the stable buffer. -/
theorem for_rows_scan_matrix (cfg : Config) (cols : Nat → Nat) (n : Nat) (st : State) :
    (for_rows (scan_row cfg cols) n st).matrix = st.matrix := by
  induction n with
  | zero => rfl
  | succ n ih =>
    show (scan_row cfg cols n (for_rows (scan_row cfg cols) n st)).matrix = st.matrix
    rw [scan_row_matrix, ih]

/-- After the sampling loop over the first `n` rows, these rows of the pending
buffer hold the samples and the other rows are as before. -/
theorem for_rows_scan_pending (cfg : Config) (cols : Nat → Nat) (n : Nat) (st : State)
    (j : Nat) :
    (for_rows (scan_row cfg cols) n st).matrix_debouncing j
      = if j < n then cols j else st.matrix_debouncing j := by
  induction n with
  | zero => simp [for_rows]
  | succ n ih =>
    show (scan_row cfg cols n (for_rows (scan_row cfg cols) n st)).matrix_debouncing j = _
    rw [scan_row_pending, ih]
    by_cases hj : j = n
    · subst hj; simp
    · have hlt : j < n + 1 ↔ j < n := by omega
      simp only [if_neg hj, hlt]

/-- The countdown after the sampling loop over the first `n` rows: the stored
`DEBOUNCE` when some sampled row differed from its pending value, and the old
countdown otherwise. -/
theorem for_rows_scan_debouncing (cfg : Config) (cols : Nat → Nat) (n : Nat) (st : State) :
    (for_rows (scan_row cfg cols) n st).debouncing
      = if ∃ i, i < n ∧ st.matrix_debouncing i ≠ cols i then cfg.DEBOUNCE % 256
        else st.debouncing := by
  induction n with
  | zero => simp [for_rows]
  | succ n ih =>
    show (scan_row cfg cols n (for_rows (scan_row cfg cols) n st)).debouncing = _
    have hp : (for_rows (scan_row cfg cols) n st).matrix_debouncing n = st.matrix_debouncing n := by
      rw [for_rows_scan_pending]; simp
    rw [scan_row_debouncing, hp]
    by_cases hn : st.matrix_debouncing n ≠ cols n
    · rw [if_pos hn, if_pos ⟨n, Nat.lt_succ_self n, hn⟩]
    · rw [if_neg hn, ih]
      have hiff : (∃ i, i < n + 1 ∧ st.matrix_debouncing i ≠ cols i)
          ↔ (∃ i, i < n ∧ st.matrix_debouncing i ≠ cols i) := by
        constructor
        · rintro ⟨i, hi, hne⟩
          have hin : i ≠ n := by
            intro h; subst h; exact hn hne
          exact ⟨i, by omega, hne⟩
        · rintro ⟨i, hi, hne⟩
          exact ⟨i, by omega, hne⟩
      simp only [hiff]

/-- A sampling loop that sees no difference is the identity. -/
theorem for_rows_scan_same (cfg : Config) (cols : Nat → Nat) (n : Nat) (st : State)
    (h : ∀ i, i < n → cols i = st.matrix_debouncing i) :
    for_rows (scan_row cfg cols) n st = st := by
  induction n with
  | zero => rfl
  | succ n ih =>
    show scan_row cfg cols n (for_rows (scan_row cfg cols) n st) = st
    rw [ih (fun i hi => h i (by omega))]
    unfold scan_row
    rw [if_neg]
    simp [h n (Nat.lt_succ_self n)]

theorem for_rows_copy_debouncing (n : Nat) (st : State) :
    (for_rows copy_row n st).debouncing = st.debouncing := by
  induction n with
  | zero => rfl
  | succ n ih => exact ih

theorem for_rows_copy_pending (n : Nat) (st : State) :
    (for_rows copy_row n st).matrix_debouncing = st.matrix_debouncing := by
  induction n with
  | zero => rfl
  | succ n ih => exact ih

/-- The copy loop over the first `n` rows overwrites exactly these rows of the
stable buffer with the pending rows. -/
theorem for_rows_copy_matrix (n : Nat) (st : State) (j : Nat) :
    (for_rows copy_row n st).matrix j
      = if j < n then st.matrix_debouncing j else st.matrix j := by
  induction n with
  | zero => simp [for_rows]
  | succ n ih =>
    show set_row (for_rows copy_row n st).matrix n
      ((for_rows copy_row n st).matrix_debouncing n) j = _
    rw [for_rows_copy_pending]
    by_cases hj : j = n
    · subst hj; simp [set_row]
    · have hlt : j < n + 1 ↔ j < n := by omega
      simp only [set_row, if_neg hj, ih, hlt]

theorem for_rows_init_debouncing (n : Nat) (st : State) :
    (for_rows init_row n st).debouncing = st.debouncing := by
  induction n with
  | zero => rfl
  | succ n ih => exact ih

theorem for_rows_init_matrix (n : Nat) (st : State) (j : Nat) :
    (for_rows init_row n st).matrix j = if j < n then 0 else st.matrix j := by
  induction n with
  | zero => simp [for_rows]
  | succ n ih =>
    show set_row (for_rows init_row n st).matrix n 0 j = _
    by_cases hj : j = n
    · subst hj; simp [set_row]
    · have hlt : j < n + 1 ↔ j < n := by omega
      simp only [set_row, if_neg hj, ih, hlt]

theorem for_rows_init_pending (n : Nat) (st : State) (j : Nat) :
    (for_rows init_row n st).matrix_debouncing j
      = if j < n then 0 else st.matrix_debouncing j := by
  induction n with
  | zero => simp [for_rows]
  | succ n ih =>
    show set_row (for_rows init_row n st).matrix_debouncing n 0 j = _
    by_cases hj : j = n
    · subst hj; simp [set_row]
    · have hlt : j < n + 1 ↔ j < n := by omega
      simp only [set_row, if_neg hj, ih, hlt]

/-! ## One sweep -/

theorem debounce_step_debouncing (cfg : Config) (t : State) :
    (debounce_step cfg t).debouncing = t.debouncing - 1 := by
  unfold debounce_step
  by_cases h0 : t.debouncing ≠ 0
  · rw [if_pos h0]
    by_cases h1 : t.debouncing - 1 ≠ 0
    · simp only [h1, ne_eq, not_false_eq_true, if_true]
    · simp only [h1, if_false, for_rows_copy_debouncing]
  · rw [if_neg h0]
    simp only [ne_eq, not_not] at h0
    rw [h0]

theorem debounce_step_pending (cfg : Config) (t : State) :
    (debounce_step cfg t).matrix_debouncing = t.matrix_debouncing := by
  unfold debounce_step
  by_cases h0 : t.debouncing ≠ 0
  · rw [if_pos h0]
    by_cases h1 : t.debouncing - 1 ≠ 0
    · simp only [h1, ne_eq, not_false_eq_true, if_true]
    · simp only [h1, if_false, for_rows_copy_pending]
  · rw [if_neg h0]

/-- The stable buffer after the end-of-sweep step: the pending rows, on every row
below `MATRIX_ROWS`, exactly when the countdown was 1; untouched otherwise. -/
theorem debounce_step_matrix (cfg : Config) (t : State) (j : Nat) :
    (debounce_step cfg t).matrix j
      = if t.debouncing = 1 ∧ j < cfg.MATRIX_ROWS then t.matrix_debouncing j
        else t.matrix j := by
  unfold debounce_step
  by_cases h0 : t.debouncing ≠ 0
  · rw [if_pos h0]
    by_cases h1 : t.debouncing - 1 ≠ 0
    · have hne : ¬ (t.debouncing = 1 ∧ j < cfg.MATRIX_ROWS) := by
        rintro ⟨h, -⟩; omega
      simp only [h1, ne_eq, not_false_eq_true, if_true, if_neg hne]
    · have h1eq : t.debouncing = 1 := by omega
      rw [if_neg h1, for_rows_copy_matrix]
      simp only [h1eq, true_and]
  · rw [if_neg h0]
    have hne : ¬ (t.debouncing = 1 ∧ j < cfg.MATRIX_ROWS) := by
      rintro ⟨h, -⟩; omega
    rw [if_neg hne]

theorem scan_rows_debouncing (cfg : Config) (cols : Nat → Nat) (st : State) :
    (scan_rows cfg cols st).debouncing
      = if ∃ i, i < cfg.MATRIX_ROWS ∧ st.matrix_debouncing i ≠ cols i
        then cfg.DEBOUNCE % 256 else st.debouncing :=
  for_rows_scan_debouncing cfg cols cfg.MATRIX_ROWS st

theorem scan_rows_same (cfg : Config) (cols : Nat → Nat) (st : State)
    (h : ∀ i, i < cfg.MATRIX_ROWS → cols i = st.matrix_debouncing i) :
    scan_rows cfg cols st = st :=
  for_rows_scan_same cfg cols cfg.MATRIX_ROWS st h

theorem matrix_scan_debouncing (cfg : Config) (cols : Nat → Nat) (st : State) :
    (matrix_scan cfg cols st).2.debouncing = (scan_rows cfg cols st).debouncing - 1 :=
  debounce_step_debouncing cfg _

theorem matrix_scan_pending (cfg : Config) (cols : Nat → Nat) (st : State) (j : Nat) :
    (matrix_scan cfg cols st).2.matrix_debouncing j
      = if j < cfg.MATRIX_ROWS then cols j else st.matrix_debouncing j := by
  show (debounce_step cfg (scan_rows cfg cols st)).matrix_debouncing j = _
  rw [debounce_step_pending]
  exact for_rows_scan_pending cfg cols cfg.MATRIX_ROWS st j

theorem matrix_scan_matrix (cfg : Config) (cols : Nat → Nat) (st : State) (j : Nat) :
    (matrix_scan cfg cols st).2.matrix j
      = if (scan_rows cfg cols st).debouncing = 1 ∧ j < cfg.MATRIX_ROWS then cols j
        else st.matrix j := by
  show (debounce_step cfg (scan_rows cfg cols st)).matrix j = _
  rw [debounce_step_matrix]
  by_cases h : (scan_rows cfg cols st).debouncing = 1 ∧ j < cfg.MATRIX_ROWS
  · rw [if_pos h, if_pos h]
    show (for_rows (scan_row cfg cols) cfg.MATRIX_ROWS st).matrix_debouncing j = _
    rw [for_rows_scan_pending, if_pos h.2]
  · rw [if_neg h, if_neg h]
    show (for_rows (scan_row cfg cols) cfg.MATRIX_ROWS st).matrix j = _
    rw [for_rows_scan_matrix]

/-- A sweep that follows a change and a run of constant samples: after `n ≥ 1`
sweeps that all read `s 0`, the first of which saw a difference, the countdown
is `DEBOUNCE - n`, the pending rows are the samples, and the stable buffer is
the old one before sweep `DEBOUNCE` and the samples from sweep `DEBOUNCE` on. -/
theorem scans_after_change (cfg : Config) (hD1 : 1 ≤ cfg.DEBOUNCE) (hD : cfg.DEBOUNCE ≤ 255)
    (st : State) (s : Nat → Nat → Nat)
    (hs : ∀ k i, i < cfg.MATRIX_ROWS → s k i = s 0 i)
    (hch : ∃ i, i < cfg.MATRIX_ROWS ∧ st.matrix_debouncing i ≠ s 0 i)
    (n : Nat) (hn : 1 ≤ n) :
    (scans cfg s n st).debouncing = cfg.DEBOUNCE - n
      ∧ (∀ i, i < cfg.MATRIX_ROWS → (scans cfg s n st).matrix_debouncing i = s 0 i)
      ∧ (n < cfg.DEBOUNCE → (scans cfg s n st).matrix = st.matrix)
      ∧ (cfg.DEBOUNCE ≤ n → ∀ i, i < cfg.MATRIX_ROWS → (scans cfg s n st).matrix i = s 0 i) := by
  have hmod : cfg.DEBOUNCE % 256 = cfg.DEBOUNCE := Nat.mod_eq_of_lt (by omega)
  induction n with
  | zero => omega
  | succ n ih =>
    show (matrix_scan cfg (s n) (scans cfg s n st)).2.debouncing = _ ∧
      (∀ i, i < cfg.MATRIX_ROWS →
        (matrix_scan cfg (s n) (scans cfg s n st)).2.matrix_debouncing i = s 0 i) ∧
      (n + 1 < cfg.DEBOUNCE → (matrix_scan cfg (s n) (scans cfg s n st)).2.matrix = st.matrix) ∧
      (cfg.DEBOUNCE ≤ n + 1 → ∀ i, i < cfg.MATRIX_ROWS →
        (matrix_scan cfg (s n) (scans cfg s n st)).2.matrix i = s 0 i)
    have hpend : ∀ i, i < cfg.MATRIX_ROWS →
        (matrix_scan cfg (s n) (scans cfg s n st)).2.matrix_debouncing i = s 0 i := by
      intro i hi
      rw [matrix_scan_pending, if_pos hi, hs n i hi]
    have hc1 : (scan_rows cfg (s n) (scans cfg s n st)).debouncing = cfg.DEBOUNCE - n := by
      rw [scan_rows_debouncing]
      rcases Nat.eq_zero_or_pos n with h0 | hpos
      · subst h0
        have hch0 : ∃ i, i < cfg.MATRIX_ROWS ∧ (scans cfg s 0 st).matrix_debouncing i ≠ s 0 i := hch
        rw [if_pos hch0, hmod]; rfl
      · obtain ⟨ihc, ihp, -, -⟩ := ih hpos
        rw [if_neg, ihc]
        rintro ⟨i, hi, hne⟩
        exact hne (by rw [ihp i hi, hs n i hi])
    refine ⟨?_, hpend, ?_, ?_⟩
    · rw [matrix_scan_debouncing, hc1]; omega
    · intro hlt
      funext j
      rw [matrix_scan_matrix, hc1, if_neg (by omega)]
      rcases Nat.eq_zero_or_pos n with h0 | hpos
      · subst h0; rfl
      · exact congrFun ((ih hpos).2.2.1 (by omega)) j
    · intro hle i hi
      rw [matrix_scan_matrix, hc1]
      by_cases h1 : cfg.DEBOUNCE - n = 1
      · rw [if_pos ⟨h1, hi⟩, hs n i hi]
      · rw [if_neg (fun h => h1 h.1)]
        have hpos : 1 ≤ n := by omega
        exact (ih hpos).2.2.2 (by omega) i hi

/-- The masked bit `x & (1 << c)` is non-zero exactly when bit `c` of `x` is 1. -/
theorem and_shift_ne_zero_iff (x c : Nat) :
    ((x &&& (1 <<< c)) != 0) = true ↔ x / 2 ^ c % 2 = 1 := by
  rw [Nat.one_shiftLeft, bne_iff_ne]
  have hbit : x.testBit c = true ↔ x / 2 ^ c % 2 = 1 := by
    rw [Nat.testBit_to_div_mod]; simp
  rw [← hbit]
  constructor
  · intro hne
    by_contra hb
    apply hne
    apply Nat.eq_of_testBit_eq
    intro i
    rw [Nat.testBit_and, Nat.testBit_two_pow, Nat.zero_testBit]
    by_cases hci : c = i
    · subst hci; simp [hb]
    · simp [hci]
  · intro hb hz
    have h := congrArg (fun y => Nat.testBit y c) hz
    simp only [Nat.testBit_and, Nat.testBit_two_pow, Nat.zero_testBit, hb] at h
    simp at h

theorem scans_succ (cfg : Config) (s : Nat → Nat → Nat) (n : Nat) (st : State) :
    scans cfg s (n + 1) st = (matrix_scan cfg (s n) (scans cfg s n st)).2 :=
  rfl

/-- Invariant of every run from a state with a full countdown and an all-zero
stable buffer.  After `n` sweeps with countdown `c`: `c ≤ DEBOUNCE`, the last
`DEBOUNCE - c` sweeps (there are that many) all read the pending buffer, and the
stable buffer is all zero or was read in `DEBOUNCE` consecutive sweeps. -/
theorem scans_invariant (cfg : Config) (hD1 : 1 ≤ cfg.DEBOUNCE) (hD : cfg.DEBOUNCE ≤ 255)
    (st : State) (hc : st.debouncing = cfg.DEBOUNCE)
    (hz : ∀ i, i < cfg.MATRIX_ROWS → st.matrix i = 0)
    (s : Nat → Nat → Nat) (n : Nat) :
    (scans cfg s n st).debouncing ≤ cfg.DEBOUNCE
      ∧ cfg.DEBOUNCE - (scans cfg s n st).debouncing ≤ n
      ∧ (∀ m, n - (cfg.DEBOUNCE - (scans cfg s n st).debouncing) ≤ m → m < n →
          ∀ r, r < cfg.MATRIX_ROWS → s m r = (scans cfg s n st).matrix_debouncing r)
      ∧ ((∀ r, r < cfg.MATRIX_ROWS → (scans cfg s n st).matrix r = 0)
        ∨ ∃ k, k + cfg.DEBOUNCE ≤ n ∧ ∀ j, j < cfg.DEBOUNCE →
            ∀ r, r < cfg.MATRIX_ROWS → s (k + j) r = (scans cfg s n st).matrix r) := by
  have hmod : cfg.DEBOUNCE % 256 = cfg.DEBOUNCE := Nat.mod_eq_of_lt (by omega)
  induction n with
  | zero =>
    refine ⟨by show st.debouncing ≤ _; omega, by show _ - st.debouncing ≤ _; omega, ?_, Or.inl hz⟩
    intro m _ hm
    omega
  | succ n ih =>
    obtain ⟨ha, hb, hcw, hd⟩ := ih
    rw [scans_succ]
    generalize scans cfg s n st = S at ha hb hcw hd ⊢
    show (matrix_scan cfg (s n) S).2.debouncing ≤ cfg.DEBOUNCE
      ∧ cfg.DEBOUNCE - (matrix_scan cfg (s n) S).2.debouncing ≤ n + 1
      ∧ (∀ m, n + 1 - (cfg.DEBOUNCE - (matrix_scan cfg (s n) S).2.debouncing) ≤ m → m < n + 1 →
          ∀ r, r < cfg.MATRIX_ROWS → s m r = (matrix_scan cfg (s n) S).2.matrix_debouncing r)
      ∧ ((∀ r, r < cfg.MATRIX_ROWS → (matrix_scan cfg (s n) S).2.matrix r = 0)
        ∨ ∃ k, k + cfg.DEBOUNCE ≤ n + 1 ∧ ∀ j, j < cfg.DEBOUNCE →
            ∀ r, r < cfg.MATRIX_ROWS → s (k + j) r = (matrix_scan cfg (s n) S).2.matrix r)
    have hpend : ∀ r, r < cfg.MATRIX_ROWS →
        (matrix_scan cfg (s n) S).2.matrix_debouncing r = s n r := by
      intro r hr
      rw [matrix_scan_pending, if_pos hr]
    have hdeb := matrix_scan_debouncing cfg (s n) S
    have hmat := matrix_scan_matrix cfg (s n) S
    have hrows := scan_rows_debouncing cfg (s n) S
    by_cases hch : ∃ i, i < cfg.MATRIX_ROWS ∧ S.matrix_debouncing i ≠ s n i
    · -- a change: the countdown restarts
      rw [if_pos hch, hmod] at hrows
      rw [hrows] at hdeb hmat
      refine ⟨by omega, by omega, ?_, ?_⟩
      · intro m hm1 hm2 r hr
        have hmn : m = n := by omega
        rw [hmn, hpend r hr]
      · by_cases hone : cfg.DEBOUNCE = 1
        · right
          refine ⟨n, by omega, ?_⟩
          intro j hj r hr
          have hj0 : j = 0 := by omega
          rw [hj0, hmat, if_pos ⟨hone, hr⟩]; rfl
        · have hsame : ∀ r, (matrix_scan cfg (s n) S).2.matrix r = S.matrix r := by
            intro r
            rw [hmat, if_neg (fun h => hone h.1)]
          rcases hd with hzero | ⟨k, hk, hwin⟩
          · left
            intro r hr
            rw [hsame, hzero r hr]
          · right
            refine ⟨k, by omega, ?_⟩
            intro j hj r hr
            rw [hsame, hwin j hj r hr]
    · -- no change: the countdown runs on
      rw [if_neg hch] at hrows
      rw [hrows] at hdeb hmat
      have hquiet : ∀ r, r < cfg.MATRIX_ROWS → S.matrix_debouncing r = s n r := by
        intro r hr
        by_contra hne
        exact hch ⟨r, hr, hne⟩
      have hwindow : ∀ m, n + 1 - (cfg.DEBOUNCE - (matrix_scan cfg (s n) S).2.debouncing) ≤ m →
          m < n + 1 → ∀ r, r < cfg.MATRIX_ROWS → s m r = s n r := by
        intro m hm1 hm2 r hr
        by_cases hmn : m = n
        · rw [hmn]
        · rw [hcw m (by omega) (by omega) r hr, hquiet r hr]
      refine ⟨by omega, by omega, ?_, ?_⟩
      · intro m hm1 hm2 r hr
        rw [hpend r hr]
        exact hwindow m hm1 hm2 r hr
      · by_cases hone : S.debouncing = 1
        · right
          refine ⟨n + 1 - cfg.DEBOUNCE, by omega, ?_⟩
          intro j hj r hr
          rw [hmat, if_pos ⟨hone, hr⟩]
          exact hwindow (n + 1 - cfg.DEBOUNCE + j) (by omega) (by omega) r hr
        · have hsame : ∀ r, (matrix_scan cfg (s n) S).2.matrix r = S.matrix r := by
            intro r
            rw [hmat, if_neg (fun h => hone h.1)]
          rcases hd with hzero | ⟨k, hk, hwin⟩
          · left
            intro r hr
            rw [hsame, hzero r hr]
          · right
            refine ⟨k, by omega, ?_⟩
            intro j hj r hr
            rw [hsame, hwin j hj r hr]

/-- After at least one sweep the pending rows are the samples of the last sweep
and the countdown is below `DEBOUNCE`. -/
theorem scans_last (cfg : Config) (hD1 : 1 ≤ cfg.DEBOUNCE) (hD : cfg.DEBOUNCE ≤ 255)
    (st : State) (hc : st.debouncing = cfg.DEBOUNCE)
    (hz : ∀ i, i < cfg.MATRIX_ROWS → st.matrix i = 0)
    (s : Nat → Nat → Nat) (n : Nat) :
    (∀ r, r < cfg.MATRIX_ROWS → (scans cfg s (n + 1) st).matrix_debouncing r = s n r)
      ∧ (scans cfg s (n + 1) st).debouncing < cfg.DEBOUNCE := by
  have hmod : cfg.DEBOUNCE % 256 = cfg.DEBOUNCE := Nat.mod_eq_of_lt (by omega)
  have ha := (scans_invariant cfg hD1 hD st hc hz s n).1
  rw [scans_succ]
  refine ⟨fun r hr => by rw [matrix_scan_pending, if_pos hr], ?_⟩
  rw [matrix_scan_debouncing, scan_rows_debouncing]
  split
  · omega
  · omega

/-- The run invariant behind the trace characterisation.  After `n` sweeps with
countdown `c`: if `c = 0` the stable rows are the pending rows; if `c ≥ 1` the
run of `DEBOUNCE - c` equal sweeps either began with sweep 1 or is preceded by a
sweep that read something else; and the stable rows are those of the reference
debouncer. -/
theorem scans_trace (cfg : Config) (hD1 : 1 ≤ cfg.DEBOUNCE) (hD : cfg.DEBOUNCE ≤ 255)
    (st : State) (hc : st.debouncing = cfg.DEBOUNCE)
    (hz : ∀ i, i < cfg.MATRIX_ROWS → st.matrix i = 0)
    (s : Nat → Nat → Nat) (n : Nat) :
    ((scans cfg s n st).debouncing = 0 →
        ∀ r, r < cfg.MATRIX_ROWS →
          (scans cfg s n st).matrix r = (scans cfg s n st).matrix_debouncing r)
      ∧ (1 ≤ (scans cfg s n st).debouncing →
          n = cfg.DEBOUNCE - (scans cfg s n st).debouncing
          ∨ (cfg.DEBOUNCE - (scans cfg s n st).debouncing < n
            ∧ ∃ i, i < cfg.MATRIX_ROWS
              ∧ s (n - (cfg.DEBOUNCE - (scans cfg s n st).debouncing) - 1) i
                ≠ s (n - (cfg.DEBOUNCE - (scans cfg s n st).debouncing)) i))
      ∧ (∀ r, r < cfg.MATRIX_ROWS →
          (scans cfg s n st).matrix r = reference_stable cfg s n r) := by
  have hmod : cfg.DEBOUNCE % 256 = cfg.DEBOUNCE := Nat.mod_eq_of_lt (by omega)
  induction n with
  | zero =>
    refine ⟨?_, ?_, ?_⟩
    · intro h0
      have h0e : st.debouncing = 0 := h0
      omega
    · intro _
      left
      show 0 = cfg.DEBOUNCE - st.debouncing
      omega
    · intro r hr
      exact hz r hr
  | succ n ih =>
    obtain ⟨he, hf, hm⟩ := ih
    obtain ⟨ha, hb, hcw, -⟩ := scans_invariant cfg hD1 hD st hc hz s n
    obtain ⟨ha1, hb1, hcw1, -⟩ := scans_invariant cfg hD1 hD st hc hz s (n + 1)
    have hlast : 1 ≤ n → (∀ r, r < cfg.MATRIX_ROWS →
        (scans cfg s n st).matrix_debouncing r = s (n - 1) r) := by
      intro hn
      obtain ⟨m, rfl⟩ : ∃ m, n = m + 1 := ⟨n - 1, by omega⟩
      exact (scans_last cfg hD1 hD st hc hz s m).1
    have hpend1 := (scans_last cfg hD1 hD st hc hz s n).1
    rw [scans_succ] at ha1 hb1 hcw1 hpend1 ⊢
    generalize scans cfg s n st = S at he hf hm ha hb hcw hlast ha1 hb1 hcw1 hpend1 ⊢
    have hdeb := matrix_scan_debouncing cfg (s n) S
    have hmat := matrix_scan_matrix cfg (s n) S
    have hrows := scan_rows_debouncing cfg (s n) S
    -- the window condition of the reference debouncer at sweep `n + 1`
    have hwin_of_promotion : (scan_rows cfg (s n) S).debouncing = 1 →
        cfg.DEBOUNCE ≤ n + 1 ∧
          (∀ j, j < cfg.DEBOUNCE → ∀ r, r < cfg.MATRIX_ROWS → s (n - j) r = s n r) := by
      intro h1
      have hc0 : (matrix_scan cfg (s n) S).2.debouncing = 0 := by omega
      refine ⟨by omega, ?_⟩
      intro j hj r hr
      rw [hcw1 (n - j) (by omega) (by omega) r hr, hpend1 r hr]
    by_cases hch : ∃ i, i < cfg.MATRIX_ROWS ∧ S.matrix_debouncing i ≠ s n i
    · -- a change at sweep `n + 1`
      rw [if_pos hch, hmod] at hrows
      rw [hrows] at hdeb hmat hwin_of_promotion
      refine ⟨?_, ?_, ?_⟩
      · intro h0 r hr
        have hone : cfg.DEBOUNCE = 1 := by omega
        rw [hmat, if_pos ⟨hone, hr⟩, hpend1 r hr]
      · intro _
        rcases Nat.eq_zero_or_pos n with hn0 | hnpos
        · left; omega
        · right
          refine ⟨by omega, ?_⟩
          obtain ⟨i, hi, hne⟩ := hch
          refine ⟨i, hi, ?_⟩
          have e1 : n + 1 - (cfg.DEBOUNCE - (matrix_scan cfg (s n) S).2.debouncing) - 1
              = n - 1 := by omega
          have e2 : n + 1 - (cfg.DEBOUNCE - (matrix_scan cfg (s n) S).2.debouncing)
              = n := by omega
          rw [e1, e2, ← hlast hnpos i hi]
          exact hne
      · intro r hr
        show _ = (if cfg.DEBOUNCE ≤ n + 1 ∧
            (∀ j, j < cfg.DEBOUNCE → ∀ r, r < cfg.MATRIX_ROWS → s (n - j) r = s n r)
          then s n else reference_stable cfg s n) r
        by_cases hone : cfg.DEBOUNCE = 1
        · rw [if_pos (hwin_of_promotion hone), hmat, if_pos ⟨hone, hr⟩]
        · have hnw : ¬ (cfg.DEBOUNCE ≤ n + 1 ∧
              (∀ j, j < cfg.DEBOUNCE → ∀ r, r < cfg.MATRIX_ROWS → s (n - j) r = s n r)) := by
            rintro ⟨hle, hw⟩
            obtain ⟨i, hi, hne⟩ := hch
            apply hne
            rw [hlast (by omega) i hi]
            have := hw 1 (by omega) i hi
            exact this
          rw [if_neg hnw, hmat, if_neg (fun h => hone h.1)]
          exact hm r hr
    · -- no change at sweep `n + 1`
      rw [if_neg hch] at hrows
      rw [hrows] at hdeb hmat hwin_of_promotion
      have hquiet : ∀ r, r < cfg.MATRIX_ROWS → S.matrix_debouncing r = s n r := by
        intro r hr
        by_contra hne
        exact hch ⟨r, hr, hne⟩
      refine ⟨?_, ?_, ?_⟩
      · intro h0 r hr
        rw [hmat, hpend1 r hr]
        by_cases h1 : S.debouncing = 1
        · rw [if_pos ⟨h1, hr⟩]
        · rw [if_neg (fun h => h1 h.1), he (by omega) r hr, hquiet r hr]
      · intro hpos
        rcases hf (by omega) with hstart | ⟨hlt, i, hi, hne⟩
        · left; omega
        · right
          refine ⟨by omega, i, hi, ?_⟩
          have e1 : n + 1 - (cfg.DEBOUNCE - (matrix_scan cfg (s n) S).2.debouncing) - 1
              = n - (cfg.DEBOUNCE - S.debouncing) - 1 := by omega
          have e2 : n + 1 - (cfg.DEBOUNCE - (matrix_scan cfg (s n) S).2.debouncing)
              = n - (cfg.DEBOUNCE - S.debouncing) := by omega
          rw [e1, e2]
          exact hne
      · intro r hr
        show _ = (if cfg.DEBOUNCE ≤ n + 1 ∧
            (∀ j, j < cfg.DEBOUNCE → ∀ r, r < cfg.MATRIX_ROWS → s (n - j) r = s n r)
          then s n else reference_stable cfg s n) r
        by_cases hW : cfg.DEBOUNCE ≤ n + 1 ∧
            (∀ j, j < cfg.DEBOUNCE → ∀ r, r < cfg.MATRIX_ROWS → s (n - j) r = s n r)
        · rw [if_pos hW, hmat]
          by_cases h1 : S.debouncing = 1
          · rw [if_pos ⟨h1, hr⟩]
          · rw [if_neg (fun h => h1 h.1)]
            have hc0 : S.debouncing = 0 := by
              by_contra hne0
              have h2 : 2 ≤ S.debouncing := by omega
              rcases hf (by omega) with hstart | ⟨hlt, i, hi, hne⟩
              · omega
              · apply hne
                have w1 := hW.2 (cfg.DEBOUNCE - S.debouncing + 1) (by omega) i hi
                have w2 := hW.2 (cfg.DEBOUNCE - S.debouncing) (by omega) i hi
                have e1 : n - (cfg.DEBOUNCE - S.debouncing + 1)
                    = n - (cfg.DEBOUNCE - S.debouncing) - 1 := by omega
                rw [e1] at w1
                rw [w1, w2]
            rw [he hc0 r hr, hquiet r hr]
        · rw [if_neg hW, hmat]
          have h1 : ¬ S.debouncing = 1 := fun h => hW (hwin_of_promotion h)
          rw [if_neg (fun h => h1 h.1)]
          exact hm r hr

/-! ## The claims -/

/-- C1 (amended): debounce delay bound.  For every debounce period with
`1 ≤ DEBOUNCE ≤ 255` and every row `r`, from a settled state (countdown 0,
stable = pending), if the raw sample of row `r` changes to a new value in one
sweep and every raw sample then stays constant, then `matrix[r]` still holds the
old value after the sweep that sampled the change followed by `k` further sweeps
for every `k` with `k + 1 < DEBOUNCE`, and `matrix[r]` is the new value after
exactly `DEBOUNCE - 1` further sweeps (the sweep number `DEBOUNCE`, counting the
one that sampled the change) and after every later sweep. -/
theorem debounce_delay_bound (cfg : Config) (hD1 : 1 ≤ cfg.DEBOUNCE) (hD : cfg.DEBOUNCE ≤ 255)
    (st : State) (s : Nat → Nat → Nat) (r : Nat) (hr : r < cfg.MATRIX_ROWS)
    (_hc : st.debouncing = 0)
    (hsettled : ∀ i, i < cfg.MATRIX_ROWS → st.matrix i = st.matrix_debouncing i)
    (hchange : s 0 r ≠ st.matrix_debouncing r)
    (hconst : ∀ k i, i < cfg.MATRIX_ROWS → s k i = s 0 i) :
    st.matrix r ≠ s 0 r
      ∧ (∀ k, k + 1 < cfg.DEBOUNCE → (scans cfg s (1 + k) st).matrix r = st.matrix r)
      ∧ (scans cfg s (1 + (cfg.DEBOUNCE - 1)) st).matrix r = s 0 r
      ∧ (∀ n, cfg.DEBOUNCE ≤ n → (scans cfg s n st).matrix r = s 0 r) := by
  have hch : ∃ i, i < cfg.MATRIX_ROWS ∧ st.matrix_debouncing i ≠ s 0 i :=
    ⟨r, hr, fun h => hchange h.symm⟩
  have key := scans_after_change cfg hD1 hD st s hconst hch
  refine ⟨?_, ?_, ?_, ?_⟩
  · rw [hsettled r hr]; exact fun h => hchange h.symm
  · intro k hk
    exact congrFun ((key (1 + k) (by omega)).2.2.1 (by omega)) r
  · exact (key (1 + (cfg.DEBOUNCE - 1)) (by omega)).2.2.2 (by omega) r hr
  · intro n hn
    exact (key n (by omega)).2.2.2 hn r hr

/-- Witness of C1: 4 rows, `DEBOUNCE = 5`, row 2 changing from 0 to `0b01`. -/
theorem debounce_delay_bound_witness :
    (1 ≤ (scenario_cfg 5).DEBOUNCE ∧ (scenario_cfg 5).DEBOUNCE ≤ 255)
      ∧ 2 < (scenario_cfg 5).MATRIX_ROWS
      ∧ (zero_state 0).debouncing = 0
      ∧ one_row 2 1 2 ≠ (zero_state 0).matrix_debouncing 2
      ∧ ((zero_state 0).matrix 2 ≠ one_row 2 1 2
        ∧ (∀ k, k + 1 < (scenario_cfg 5).DEBOUNCE →
            (scans (scenario_cfg 5) (fun _ => one_row 2 1) (1 + k) (zero_state 0)).matrix 2
              = (zero_state 0).matrix 2)
        ∧ (scans (scenario_cfg 5) (fun _ => one_row 2 1)
            (1 + ((scenario_cfg 5).DEBOUNCE - 1)) (zero_state 0)).matrix 2 = one_row 2 1 2
        ∧ (∀ n, (scenario_cfg 5).DEBOUNCE ≤ n →
            (scans (scenario_cfg 5) (fun _ => one_row 2 1) n (zero_state 0)).matrix 2
              = one_row 2 1 2)) :=
  ⟨by decide, by decide, rfl, by decide,
    debounce_delay_bound (scenario_cfg 5) (by decide) (by decide) (zero_state 0)
      (fun _ => one_row 2 1) 2 (by decide) rfl (fun _ _ => rfl) (by decide)
      (fun _ _ _ => rfl)⟩

/-- Counterexample to C1 as stated: with `DEBOUNCE = 5`, from the settled all-zero
state, row 2 changes to `0b01` and all samples stay constant; after the sweep
that sampled the change and 4 further sweeps (fewer than 5) `matrix[2]` is
already the new value `0b01`, not the old value 0. -/
theorem debounce_delay_bound_counterexample :
    (zero_state 0).debouncing = 0
      ∧ (zero_state 0).matrix 2 = 0
      ∧ (zero_state 0).matrix_debouncing 2 = 0
      ∧ 4 < (scenario_cfg 5).DEBOUNCE
      ∧ (scans (scenario_cfg 5) (fun _ => one_row 2 1) (1 + 4) (zero_state 0)).matrix 2 = 1
      ∧ (scans (scenario_cfg 5) (fun _ => one_row 2 1) (1 + 4) (zero_state 0)).matrix 2
          ≠ (zero_state 0).matrix 2 := by
  decide

/-- C2 (amended): promotion scenario, generalised.  For every debounce period with
`1 ≤ DEBOUNCE ≤ 255`, every row `r` and every starting countdown, from all-zero
pending and stable buffers, if row `r` reads a non-zero `v` from sweep 1 on and
every other row reads 0, then after sweep 1 `matrix_debouncing[r] = v`, the
stable buffer is all zero after each of the sweeps `1 .. DEBOUNCE - 1` (none when
`DEBOUNCE = 1`), and after sweep `DEBOUNCE` the countdown is 0, `matrix[r] = v`
and every other stable row is still 0. -/
theorem promotion_scenario (cfg : Config) (hD1 : 1 ≤ cfg.DEBOUNCE) (hD : cfg.DEBOUNCE ≤ 255)
    (st : State) (r v : Nat) (hr : r < cfg.MATRIX_ROWS) (hv : v ≠ 0)
    (hzero : ∀ i, i < cfg.MATRIX_ROWS → st.matrix i = 0 ∧ st.matrix_debouncing i = 0)
    (s : Nat → Nat → Nat) (hsr : ∀ k, s k r = v)
    (hso : ∀ k i, i < cfg.MATRIX_ROWS → i ≠ r → s k i = 0) :
    (scans cfg s 1 st).matrix_debouncing r = v
      ∧ (∀ k, 1 ≤ k → k < cfg.DEBOUNCE →
          ∀ i, i < cfg.MATRIX_ROWS → (scans cfg s k st).matrix i = 0)
      ∧ (scans cfg s cfg.DEBOUNCE st).debouncing = 0
      ∧ (scans cfg s cfg.DEBOUNCE st).matrix r = v
      ∧ (∀ i, i < cfg.MATRIX_ROWS → i ≠ r → (scans cfg s cfg.DEBOUNCE st).matrix i = 0) := by
  have hconst : ∀ k i, i < cfg.MATRIX_ROWS → s k i = s 0 i := by
    intro k i hi
    by_cases hir : i = r
    · subst hir; rw [hsr k, hsr 0]
    · rw [hso k i hi hir, hso 0 i hi hir]
  have hch : ∃ i, i < cfg.MATRIX_ROWS ∧ st.matrix_debouncing i ≠ s 0 i := by
    refine ⟨r, hr, ?_⟩
    rw [(hzero r hr).2, hsr 0]
    exact fun h => hv h.symm
  have key := scans_after_change cfg hD1 hD st s hconst hch
  refine ⟨?_, ?_, ?_, ?_, ?_⟩
  · rw [(key 1 (le_refl 1)).2.1 r hr, hsr 0]
  · intro k hk1 hkD i hi
    rw [congrFun ((key k hk1).2.2.1 hkD) i]
    exact (hzero i hi).1
  · rw [(key cfg.DEBOUNCE hD1).1]; omega
  · rw [(key cfg.DEBOUNCE hD1).2.2.2 (le_refl _) r hr, hsr 0]
  · intro i hi hir
    rw [(key cfg.DEBOUNCE hD1).2.2.2 (le_refl _) i hi, hso 0 i hi hir]

/-- Witness of C2: the scenario with 4 rows, 2 columns, `DEBOUNCE = 5`, row 2
reading `0b01`; the promotion happens at sweep 5. -/
theorem promotion_scenario_witness :
    (1 ≤ (scenario_cfg 5).DEBOUNCE ∧ (scenario_cfg 5).DEBOUNCE ≤ 255)
      ∧ 2 < (scenario_cfg 5).MATRIX_ROWS
      ∧ (1 : Nat) ≠ 0
      ∧ ((scans (scenario_cfg 5) (fun _ => one_row 2 1) 1
            (initial_state (scenario_cfg 5))).matrix_debouncing 2 = 1
        ∧ (∀ k, 1 ≤ k → k < (scenario_cfg 5).DEBOUNCE →
            ∀ i, i < (scenario_cfg 5).MATRIX_ROWS →
              (scans (scenario_cfg 5) (fun _ => one_row 2 1) k
                (initial_state (scenario_cfg 5))).matrix i = 0)
        ∧ (scans (scenario_cfg 5) (fun _ => one_row 2 1) (scenario_cfg 5).DEBOUNCE
            (initial_state (scenario_cfg 5))).debouncing = 0
        ∧ (scans (scenario_cfg 5) (fun _ => one_row 2 1) (scenario_cfg 5).DEBOUNCE
            (initial_state (scenario_cfg 5))).matrix 2 = 1
        ∧ (∀ i, i < (scenario_cfg 5).MATRIX_ROWS → i ≠ 2 →
            (scans (scenario_cfg 5) (fun _ => one_row 2 1) (scenario_cfg 5).DEBOUNCE
              (initial_state (scenario_cfg 5))).matrix i = 0)) :=
  ⟨by decide, by decide, by decide,
    promotion_scenario (scenario_cfg 5) (by decide) (by decide)
      (initial_state (scenario_cfg 5)) 2 1 (by decide) (by decide)
      (fun _ _ => ⟨rfl, rfl⟩) (fun _ => one_row 2 1) (fun _ => rfl)
      (fun _ i _ hi => if_neg hi)⟩

/-- Counterexample to C2 as stated: with `DEBOUNCE = 1` (4 rows, row 2 reading
`0b01`, all buffers zero at the start) the stable buffer is not all zero after
sweep 1: `matrix[2]` is already `0b01`. -/
theorem promotion_scenario_counterexample :
    (1 ≤ (scenario_cfg 1).DEBOUNCE ∧ (scenario_cfg 1).DEBOUNCE ≤ 255)
      ∧ (scans (scenario_cfg 1) (fun _ => one_row 2 1) 1
          (initial_state (scenario_cfg 1))).matrix_debouncing 2 = 1
      ∧ (scans (scenario_cfg 1) (fun _ => one_row 2 1) 1
          (initial_state (scenario_cfg 1))).matrix 2 = 1
      ∧ ¬ (∀ i, i < (scenario_cfg 1).MATRIX_ROWS →
          (scans (scenario_cfg 1) (fun _ => one_row 2 1) 1
            (initial_state (scenario_cfg 1))).matrix i = 0) := by
  decide

/-- C3: idempotent stability.  In a state whose countdown is 0, a sweep whose raw
sample of every row equals that row's pending value leaves the whole engine
state (stable buffer, pending buffer, countdown) unchanged, the countdown stays
0, and so does any number of such sweeps. -/
theorem idempotent_stability (cfg : Config) (st : State) (s : Nat → Nat → Nat)
    (hc : st.debouncing = 0)
    (hs : ∀ k i, i < cfg.MATRIX_ROWS → s k i = st.matrix_debouncing i) :
    (∀ k, (matrix_scan cfg (s k) st).2 = st)
      ∧ (∀ n, scans cfg s n st = st)
      ∧ (∀ n, (scans cfg s n st).debouncing = 0) := by
  have one : ∀ k, (matrix_scan cfg (s k) st).2 = st := by
    intro k
    show debounce_step cfg (scan_rows cfg (s k) st) = st
    rw [scan_rows_same cfg (s k) st (hs k)]
    unfold debounce_step
    rw [if_neg (by rw [hc]; exact fun h => h rfl)]
  have all : ∀ n, scans cfg s n st = st := by
    intro n
    induction n with
    | zero => rfl
    | succ n ih =>
      show (matrix_scan cfg (s n) (scans cfg s n st)).2 = st
      rw [ih]; exact one n
  exact ⟨one, all, fun n => by rw [all n]; exact hc⟩

/-- Witness of C3: the promoted state of the scenario (row 2 holding `0b01` in
both buffers, countdown 0) under sweeps that keep reading the same samples. -/
theorem idempotent_stability_witness :
    (scans (scenario_cfg 5) (fun _ => one_row 2 1) 5
        (initial_state (scenario_cfg 5))).debouncing = 0
      ∧ (∀ i, i < (scenario_cfg 5).MATRIX_ROWS →
          one_row 2 1 i = (scans (scenario_cfg 5) (fun _ => one_row 2 1) 5
            (initial_state (scenario_cfg 5))).matrix_debouncing i)
      ∧ (∀ n, scans (scenario_cfg 5) (fun _ => one_row 2 1) n
          (scans (scenario_cfg 5) (fun _ => one_row 2 1) 5 (initial_state (scenario_cfg 5)))
            = scans (scenario_cfg 5) (fun _ => one_row 2 1) 5
                (initial_state (scenario_cfg 5))) :=
  ⟨by decide, by decide,
    (idempotent_stability (scenario_cfg 5)
      (scans (scenario_cfg 5) (fun _ => one_row 2 1) 5 (initial_state (scenario_cfg 5)))
      (fun _ => one_row 2 1) (by decide)
      (fun _ => (by decide : ∀ i, i < (scenario_cfg 5).MATRIX_ROWS →
        one_row 2 1 i = (scans (scenario_cfg 5) (fun _ => one_row 2 1) 5
          (initial_state (scenario_cfg 5))).matrix_debouncing i))).2.1⟩

/-- C4 (amended): global reset on bounce.  For every debounce period with
`2 ≤ DEBOUNCE ≤ 255` and every state whose countdown `c` has
`1 ≤ c ≤ DEBOUNCE - 1`, a sweep in which at least one row's raw sample differs
from its pending value sets the countdown to `DEBOUNCE` in the sampling loop,
ends with the countdown `DEBOUNCE - 1` whatever `c` was, and writes no row of
the stable buffer. -/
theorem global_reset_on_bounce (cfg : Config) (hD2 : 2 ≤ cfg.DEBOUNCE)
    (hD : cfg.DEBOUNCE ≤ 255) (st : State) (cols : Nat → Nat)
    (_hc1 : 1 ≤ st.debouncing) (_hc2 : st.debouncing ≤ cfg.DEBOUNCE - 1)
    (hch : ∃ i, i < cfg.MATRIX_ROWS ∧ cols i ≠ st.matrix_debouncing i) :
    (scan_rows cfg cols st).debouncing = cfg.DEBOUNCE
      ∧ (matrix_scan cfg cols st).2.debouncing = cfg.DEBOUNCE - 1
      ∧ (∀ i, (matrix_scan cfg cols st).2.matrix i = st.matrix i) := by
  have hmod : cfg.DEBOUNCE % 256 = cfg.DEBOUNCE := Nat.mod_eq_of_lt (by omega)
  have hch2 : ∃ i, i < cfg.MATRIX_ROWS ∧ st.matrix_debouncing i ≠ cols i := by
    obtain ⟨i, hi, hne⟩ := hch
    exact ⟨i, hi, fun h => hne h.symm⟩
  have hc1 : (scan_rows cfg cols st).debouncing = cfg.DEBOUNCE := by
    rw [scan_rows_debouncing, if_pos hch2, hmod]
  refine ⟨hc1, ?_, ?_⟩
  · rw [matrix_scan_debouncing, hc1]
  · intro i
    rw [matrix_scan_matrix, hc1, if_neg (by omega)]

/-- Witness of C4: the bounce scenario with `DEBOUNCE = 5`.  After sweeps 1 and 2
the countdown is 3 and sweep 3 reads row 2 back at `0b00`; after sweep 3 the
countdown is 4 and sweep 4 reads row 2 at `0b01` again.  Both sweeps reset the
countdown to 5 and leave the stable buffer as it was. -/
theorem global_reset_on_bounce_witness :
    (2 ≤ (scenario_cfg 5).DEBOUNCE ∧ (scenario_cfg 5).DEBOUNCE ≤ 255)
      ∧ ((scans (scenario_cfg 5) bounce 2 (initial_state (scenario_cfg 5))).debouncing = 3
        ∧ (bounce 2 2 ≠
            (scans (scenario_cfg 5) bounce 2
              (initial_state (scenario_cfg 5))).matrix_debouncing 2)
        ∧ (scan_rows (scenario_cfg 5) (bounce 2)
            (scans (scenario_cfg 5) bounce 2 (initial_state (scenario_cfg 5)))).debouncing
            = (scenario_cfg 5).DEBOUNCE
        ∧ (matrix_scan (scenario_cfg 5) (bounce 2)
            (scans (scenario_cfg 5) bounce 2 (initial_state (scenario_cfg 5)))).2.debouncing
            = (scenario_cfg 5).DEBOUNCE - 1
        ∧ (∀ i, (matrix_scan (scenario_cfg 5) (bounce 2)
            (scans (scenario_cfg 5) bounce 2 (initial_state (scenario_cfg 5)))).2.matrix i
            = (scans (scenario_cfg 5) bounce 2 (initial_state (scenario_cfg 5))).matrix i))
      ∧ ((scans (scenario_cfg 5) bounce 3 (initial_state (scenario_cfg 5))).debouncing = 4
        ∧ (bounce 3 2 ≠
            (scans (scenario_cfg 5) bounce 3
              (initial_state (scenario_cfg 5))).matrix_debouncing 2)
        ∧ (scan_rows (scenario_cfg 5) (bounce 3)
            (scans (scenario_cfg 5) bounce 3 (initial_state (scenario_cfg 5)))).debouncing
            = (scenario_cfg 5).DEBOUNCE
        ∧ (matrix_scan (scenario_cfg 5) (bounce 3)
            (scans (scenario_cfg 5) bounce 3 (initial_state (scenario_cfg 5)))).2.debouncing
            = (scenario_cfg 5).DEBOUNCE - 1
        ∧ (∀ i, (matrix_scan (scenario_cfg 5) (bounce 3)
            (scans (scenario_cfg 5) bounce 3 (initial_state (scenario_cfg 5)))).2.matrix i
            = (scans (scenario_cfg 5) bounce 3 (initial_state (scenario_cfg 5))).matrix i)) :=
  ⟨by decide,
    ⟨by decide, by decide,
      global_reset_on_bounce (scenario_cfg 5) (by decide) (by decide)
        (scans (scenario_cfg 5) bounce 2 (initial_state (scenario_cfg 5))) (bounce 2)
        (by decide) (by decide) ⟨2, by decide, by decide⟩⟩,
    ⟨by decide, by decide,
      global_reset_on_bounce (scenario_cfg 5) (by decide) (by decide)
        (scans (scenario_cfg 5) bounce 3 (initial_state (scenario_cfg 5))) (bounce 3)
        (by decide) (by decide) ⟨2, by decide, by decide⟩⟩⟩

/-- Counterexample to C4 as stated (every `DEBOUNCE ≥ 2`): with `DEBOUNCE = 257`
the `uint8_t` countdown stores `257 % 256 = 1`.  From the all-zero state with
countdown 1 (between 1 and `DEBOUNCE - 1`), a sweep in which row 2 reads `0b01`
leaves the sampling loop with countdown 1, not 257, and the same sweep writes
the stable buffer: `matrix[2]` becomes `0b01`. -/
theorem global_reset_on_bounce_counterexample :
    2 ≤ (scenario_cfg 257).DEBOUNCE
      ∧ (1 ≤ (zero_state 1).debouncing
        ∧ (zero_state 1).debouncing ≤ (scenario_cfg 257).DEBOUNCE - 1)
      ∧ one_row 2 1 2 ≠ (zero_state 1).matrix_debouncing 2
      ∧ (scan_rows (scenario_cfg 257) (one_row 2 1) (zero_state 1)).debouncing = 1
      ∧ (scan_rows (scenario_cfg 257) (one_row 2 1) (zero_state 1)).debouncing
          ≠ (scenario_cfg 257).DEBOUNCE
      ∧ (zero_state 1).matrix 2 = 0
      ∧ (matrix_scan (scenario_cfg 257) (one_row 2 1) (zero_state 1)).2.matrix 2 = 1 := by
  decide

/-- C5: no partial promotion.  For every state and every vector of raw samples,
what `matrix_get_row` returns after `matrix_scan` is, on all rows below
`MATRIX_ROWS`, either what it returned before the scan or the pending buffer
after the scan; it is never a mixture of the two. -/
theorem promotion_is_whole (cfg : Config) (cols : Nat → Nat) (st : State) :
    (∀ r, r < cfg.MATRIX_ROWS →
        matrix_get_row (matrix_scan cfg cols st).2 r = matrix_get_row st r)
      ∨ (∀ r, r < cfg.MATRIX_ROWS →
        matrix_get_row (matrix_scan cfg cols st).2 r
          = (matrix_scan cfg cols st).2.matrix_debouncing r) := by
  unfold matrix_get_row
  by_cases h1 : (scan_rows cfg cols st).debouncing = 1
  · right
    intro r hr
    rw [matrix_scan_matrix, if_pos ⟨h1, hr⟩, matrix_scan_pending, if_pos hr]
  · left
    intro r _
    rw [matrix_scan_matrix, if_neg (fun h => h1 h.1)]

/-- C6: bitmask correctness.  For every state, every `row < MATRIX_ROWS` and every
`col < MATRIX_COLS`, `matrix_is_on(row, col)` is true if and only if bit `col`
of `matrix_get_row(row)` is 1, and `matrix_get_row(row)` is `matrix[row]`. -/
theorem bitmask_correctness (cfg : Config) (st : State) (row col : Nat)
    (_hrow : row < cfg.MATRIX_ROWS) (_hcol : col < cfg.MATRIX_COLS) :
    (matrix_is_on st row col = true ↔ matrix_get_row st row / 2 ^ col % 2 = 1)
      ∧ matrix_get_row st row = st.matrix row :=
  ⟨and_shift_ne_zero_iff (st.matrix row) col, rfl⟩

/-- Witness of C6: row 2, column 0 of the promoted scenario state. -/
theorem bitmask_correctness_witness :
    2 < (scenario_cfg 5).MATRIX_ROWS ∧ 0 < (scenario_cfg 5).MATRIX_COLS
      ∧ ((matrix_is_on (scans (scenario_cfg 5) (fun _ => one_row 2 1) 5
            (initial_state (scenario_cfg 5))) 2 0 = true
          ↔ matrix_get_row (scans (scenario_cfg 5) (fun _ => one_row 2 1) 5
            (initial_state (scenario_cfg 5))) 2 / 2 ^ 0 % 2 = 1)
        ∧ matrix_get_row (scans (scenario_cfg 5) (fun _ => one_row 2 1) 5
            (initial_state (scenario_cfg 5))) 2
          = (scans (scenario_cfg 5) (fun _ => one_row 2 1) 5
            (initial_state (scenario_cfg 5))).matrix 2) :=
  ⟨by decide, by decide,
    bitmask_correctness (scenario_cfg 5)
      (scans (scenario_cfg 5) (fun _ => one_row 2 1) 5 (initial_state (scenario_cfg 5)))
      2 0 (by decide) (by decide)⟩

/-- C7 (amended): `matrix_init` and the countdown.  For every prior engine state,
`matrix_init` leaves the countdown as it was (the function holds no store to
`debouncing`); the countdown equals `DEBOUNCE` after `matrix_init` when it is
called on the state at program start, where the static initialiser has stored
`DEBOUNCE` (at most 255) in it. -/
theorem matrix_init_countdown (cfg : Config) (st : State) :
    (matrix_init cfg st).debouncing = st.debouncing
      ∧ (cfg.DEBOUNCE ≤ 255 →
          (matrix_init cfg (initial_state cfg)).debouncing = cfg.DEBOUNCE) := by
  refine ⟨for_rows_init_debouncing cfg.MATRIX_ROWS st, fun hD => ?_⟩
  show (for_rows init_row cfg.MATRIX_ROWS (initial_state cfg)).debouncing = cfg.DEBOUNCE
  rw [for_rows_init_debouncing]
  exact Nat.mod_eq_of_lt (by omega)

/-- Witness of C7: the default period 5 with 4 rows. -/
theorem matrix_init_countdown_witness :
    (scenario_cfg 5).DEBOUNCE ≤ 255
      ∧ (matrix_init (scenario_cfg 5) (initial_state (scenario_cfg 5))).debouncing
          = (scenario_cfg 5).DEBOUNCE :=
  ⟨by decide,
    (matrix_init_countdown (scenario_cfg 5) (initial_state (scenario_cfg 5))).2 (by decide)⟩

/-- Counterexample to C7 as stated: with `DEBOUNCE = 5`, after the 5 sweeps of the
promotion scenario the countdown is 0, and it is still 0, not 5, after
`matrix_init`. -/
theorem matrix_init_countdown_counterexample :
    (scans (scenario_cfg 5) (fun _ => one_row 2 1) 5
        (initial_state (scenario_cfg 5))).debouncing = 0
      ∧ (matrix_init (scenario_cfg 5)
          (scans (scenario_cfg 5) (fun _ => one_row 2 1) 5
            (initial_state (scenario_cfg 5)))).debouncing = 0
      ∧ (matrix_init (scenario_cfg 5)
          (scans (scenario_cfg 5) (fun _ => one_row 2 1) 5
            (initial_state (scenario_cfg 5)))).debouncing ≠ (scenario_cfg 5).DEBOUNCE := by
  decide

/-- C8: `matrix_init` zero-fills both buffers.  For every prior state, after
`matrix_init` every row below `MATRIX_ROWS` of the pending buffer and of the
stable buffer is 0, so `matrix_get_row(row) = 0` and `matrix_is_on(row, col)` is
false for every `row < MATRIX_ROWS` and `col < MATRIX_COLS`. -/
theorem matrix_init_zero_fills (cfg : Config) (st : State) (row col : Nat)
    (hrow : row < cfg.MATRIX_ROWS) (_hcol : col < cfg.MATRIX_COLS) :
    (matrix_init cfg st).matrix_debouncing row = 0
      ∧ (matrix_init cfg st).matrix row = 0
      ∧ matrix_get_row (matrix_init cfg st) row = 0
      ∧ matrix_is_on (matrix_init cfg st) row col = false := by
  have hm : (matrix_init cfg st).matrix row = 0 := by
    show (for_rows init_row cfg.MATRIX_ROWS st).matrix row = 0
    rw [for_rows_init_matrix, if_pos hrow]
  have hp : (matrix_init cfg st).matrix_debouncing row = 0 := by
    show (for_rows init_row cfg.MATRIX_ROWS st).matrix_debouncing row = 0
    rw [for_rows_init_pending, if_pos hrow]
  refine ⟨hp, hm, hm, ?_⟩
  unfold matrix_is_on
  rw [hm]
  simp

/-- Witness of C8: `matrix_init` called on the promoted scenario state, whose
row 2 holds `0b01` in both buffers. -/
theorem matrix_init_zero_fills_witness :
    2 < (scenario_cfg 5).MATRIX_ROWS ∧ 0 < (scenario_cfg 5).MATRIX_COLS
      ∧ (scans (scenario_cfg 5) (fun _ => one_row 2 1) 5
          (initial_state (scenario_cfg 5))).matrix 2 = 1
      ∧ ((matrix_init (scenario_cfg 5)
            (scans (scenario_cfg 5) (fun _ => one_row 2 1) 5
              (initial_state (scenario_cfg 5)))).matrix_debouncing 2 = 0
        ∧ (matrix_init (scenario_cfg 5)
            (scans (scenario_cfg 5) (fun _ => one_row 2 1) 5
              (initial_state (scenario_cfg 5)))).matrix 2 = 0
        ∧ matrix_get_row (matrix_init (scenario_cfg 5)
            (scans (scenario_cfg 5) (fun _ => one_row 2 1) 5
              (initial_state (scenario_cfg 5)))) 2 = 0
        ∧ matrix_is_on (matrix_init (scenario_cfg 5)
            (scans (scenario_cfg 5) (fun _ => one_row 2 1) 5
              (initial_state (scenario_cfg 5)))) 2 0 = false) :=
  ⟨by decide, by decide, by decide,
    matrix_init_zero_fills (scenario_cfg 5)
      (scans (scenario_cfg 5) (fun _ => one_row 2 1) 5 (initial_state (scenario_cfg 5)))
      2 0 (by decide) (by decide)⟩

/-- C9: stable-buffer invariant.  For every debounce period with
`1 ≤ DEBOUNCE ≤ 255` and every sequence of raw sample vectors, after any number
`n` of `matrix_scan` calls from the initial state (countdown `DEBOUNCE`, both
buffers zero) the stable buffer is all zero or equals, in every row below
`MATRIX_ROWS`, the raw sample vector read in `DEBOUNCE` consecutive sweeps
`k + 1, ..., k + DEBOUNCE` among the first `n`. -/
theorem stable_buffer_invariant (cfg : Config) (hD1 : 1 ≤ cfg.DEBOUNCE)
    (hD : cfg.DEBOUNCE ≤ 255) (st : State) (hc : st.debouncing = cfg.DEBOUNCE)
    (hzero : ∀ i, i < cfg.MATRIX_ROWS → st.matrix i = 0 ∧ st.matrix_debouncing i = 0)
    (s : Nat → Nat → Nat) (n : Nat) :
    (∀ r, r < cfg.MATRIX_ROWS → (scans cfg s n st).matrix r = 0)
      ∨ ∃ k, k + cfg.DEBOUNCE ≤ n ∧ ∀ j, j < cfg.DEBOUNCE →
          ∀ r, r < cfg.MATRIX_ROWS → s (k + j) r = (scans cfg s n st).matrix r :=
  (scans_invariant cfg hD1 hD st hc (fun i hi => (hzero i hi).1) s n).2.2.2

/-- Witness of C9: the bounce scenario with `DEBOUNCE = 5` from the state at
program start, observed after 9 sweeps. -/
theorem stable_buffer_invariant_witness :
    (1 ≤ (scenario_cfg 5).DEBOUNCE ∧ (scenario_cfg 5).DEBOUNCE ≤ 255)
      ∧ (initial_state (scenario_cfg 5)).debouncing = (scenario_cfg 5).DEBOUNCE
      ∧ (∀ i, i < (scenario_cfg 5).MATRIX_ROWS →
          (initial_state (scenario_cfg 5)).matrix i = 0
            ∧ (initial_state (scenario_cfg 5)).matrix_debouncing i = 0)
      ∧ ((∀ r, r < (scenario_cfg 5).MATRIX_ROWS →
            (scans (scenario_cfg 5) bounce 9 (initial_state (scenario_cfg 5))).matrix r = 0)
        ∨ ∃ k, k + (scenario_cfg 5).DEBOUNCE ≤ 9 ∧ ∀ j, j < (scenario_cfg 5).DEBOUNCE →
            ∀ r, r < (scenario_cfg 5).MATRIX_ROWS →
              bounce (k + j) r
                = (scans (scenario_cfg 5) bounce 9 (initial_state (scenario_cfg 5))).matrix r) :=
  ⟨by decide, rfl, fun _ _ => ⟨rfl, rfl⟩,
    stable_buffer_invariant (scenario_cfg 5) (by decide) (by decide)
      (initial_state (scenario_cfg 5)) rfl (fun _ _ => ⟨rfl, rfl⟩) bounce 9⟩

/-- C10 (amended): settling leaves the stable buffer untouched.  For every
debounce period with `2 ≤ DEBOUNCE ≤ 255` and every state with countdown > 0, a
sweep that observes a change (some row's raw sample differs from its pending
value) accepts the samples into the pending buffer, restarts the countdown at
`DEBOUNCE` in the sampling loop (so the sweep ends at `DEBOUNCE - 1`), and
leaves every row of the stable buffer unchanged. -/
theorem settling_leaves_stable (cfg : Config) (hD2 : 2 ≤ cfg.DEBOUNCE)
    (hD : cfg.DEBOUNCE ≤ 255) (st : State) (cols : Nat → Nat)
    (_hc : 0 < st.debouncing)
    (hch : ∃ i, i < cfg.MATRIX_ROWS ∧ cols i ≠ st.matrix_debouncing i) :
    (∀ i, i < cfg.MATRIX_ROWS → (matrix_scan cfg cols st).2.matrix_debouncing i = cols i)
      ∧ (scan_rows cfg cols st).debouncing = cfg.DEBOUNCE
      ∧ (matrix_scan cfg cols st).2.debouncing = cfg.DEBOUNCE - 1
      ∧ (∀ i, (matrix_scan cfg cols st).2.matrix i = st.matrix i) := by
  have hmod : cfg.DEBOUNCE % 256 = cfg.DEBOUNCE := Nat.mod_eq_of_lt (by omega)
  have hc1 : (scan_rows cfg cols st).debouncing = cfg.DEBOUNCE := by
    rw [scan_rows_debouncing, if_pos, hmod]
    obtain ⟨i, hi, hne⟩ := hch
    exact ⟨i, hi, fun h => hne h.symm⟩
  refine ⟨?_, hc1, ?_, ?_⟩
  · intro i hi
    rw [matrix_scan_pending, if_pos hi]
  · rw [matrix_scan_debouncing, hc1]
  · intro i
    rw [matrix_scan_matrix, hc1, if_neg (by omega)]

/-- Witness of C10: sweep 1 of the scenario with `DEBOUNCE = 5`, from the state at
program start (countdown 5), row 2 reading `0b01`. -/
theorem settling_leaves_stable_witness :
    (2 ≤ (scenario_cfg 5).DEBOUNCE ∧ (scenario_cfg 5).DEBOUNCE ≤ 255)
      ∧ 0 < (initial_state (scenario_cfg 5)).debouncing
      ∧ one_row 2 1 2 ≠ (initial_state (scenario_cfg 5)).matrix_debouncing 2
      ∧ ((∀ i, i < (scenario_cfg 5).MATRIX_ROWS →
            (matrix_scan (scenario_cfg 5) (one_row 2 1)
              (initial_state (scenario_cfg 5))).2.matrix_debouncing i = one_row 2 1 i)
        ∧ (scan_rows (scenario_cfg 5) (one_row 2 1)
            (initial_state (scenario_cfg 5))).debouncing = (scenario_cfg 5).DEBOUNCE
        ∧ (matrix_scan (scenario_cfg 5) (one_row 2 1)
            (initial_state (scenario_cfg 5))).2.debouncing = (scenario_cfg 5).DEBOUNCE - 1
        ∧ (∀ i, (matrix_scan (scenario_cfg 5) (one_row 2 1)
            (initial_state (scenario_cfg 5))).2.matrix i
              = (initial_state (scenario_cfg 5)).matrix i)) :=
  ⟨by decide, by decide, by decide,
    settling_leaves_stable (scenario_cfg 5) (by decide) (by decide)
      (initial_state (scenario_cfg 5)) (one_row 2 1) (by decide)
      ⟨2, by decide, by decide⟩⟩

/-- Counterexample to C10 as stated (every `DEBOUNCE ≥ 1`).  With `DEBOUNCE = 1`,
from the state at program start (countdown 1 > 0, buffers zero), the sweep in
which row 2 reads `0b01` restarts the countdown at 1, decrements it to 0 and
copies the pending buffer: `matrix[2]` changes from 0 to `0b01`.  With
`DEBOUNCE = 257` the `uint8_t` countdown restarts at `257 % 256 = 1`, not at
257, and the stable buffer is written as well. -/
theorem settling_leaves_stable_counterexample :
    (1 ≤ (scenario_cfg 1).DEBOUNCE
        ∧ 0 < (initial_state (scenario_cfg 1)).debouncing
        ∧ one_row 2 1 2 ≠ (initial_state (scenario_cfg 1)).matrix_debouncing 2
        ∧ (initial_state (scenario_cfg 1)).matrix 2 = 0
        ∧ (matrix_scan (scenario_cfg 1) (one_row 2 1)
            (initial_state (scenario_cfg 1))).2.matrix 2 = 1)
      ∧ (1 ≤ (scenario_cfg 257).DEBOUNCE
        ∧ 0 < (initial_state (scenario_cfg 257)).debouncing
        ∧ one_row 2 1 2 ≠ (initial_state (scenario_cfg 257)).matrix_debouncing 2
        ∧ (scan_rows (scenario_cfg 257) (one_row 2 1)
            (initial_state (scenario_cfg 257))).debouncing = 1
        ∧ (initial_state (scenario_cfg 257)).matrix 2 = 0
        ∧ (matrix_scan (scenario_cfg 257) (one_row 2 1)
            (initial_state (scenario_cfg 257))).2.matrix 2 = 1) := by
  decide

/-- C11: `matrix_scan` is the specified step function.  For every debounce period
with `1 ≤ DEBOUNCE ≤ 255`, every state with countdown `c` and every raw sample
vector `cols`, let `c1` be `DEBOUNCE` if some row's sample differs from its
pending value and `c` otherwise.  After `matrix_scan` the pending buffer holds
the samples in every row, the countdown is `c1 - 1` if `c1 > 0` and 0
otherwise, the stable buffer holds the samples in every row if `c1 = 1` and is
unchanged otherwise, and the returned value is 1. -/
theorem matrix_scan_step (cfg : Config) (_hD1 : 1 ≤ cfg.DEBOUNCE) (hD : cfg.DEBOUNCE ≤ 255)
    (st : State) (cols : Nat → Nat) (c1 : Nat)
    (hc1 : c1 = if ∃ i, i < cfg.MATRIX_ROWS ∧ cols i ≠ st.matrix_debouncing i
      then cfg.DEBOUNCE else st.debouncing) :
    (∀ i, i < cfg.MATRIX_ROWS → (matrix_scan cfg cols st).2.matrix_debouncing i = cols i)
      ∧ (matrix_scan cfg cols st).2.debouncing = (if 0 < c1 then c1 - 1 else 0)
      ∧ (c1 = 1 → ∀ i, i < cfg.MATRIX_ROWS → (matrix_scan cfg cols st).2.matrix i = cols i)
      ∧ (c1 ≠ 1 → ∀ i, (matrix_scan cfg cols st).2.matrix i = st.matrix i)
      ∧ (matrix_scan cfg cols st).1 = 1 := by
  have hmod : cfg.DEBOUNCE % 256 = cfg.DEBOUNCE := Nat.mod_eq_of_lt (by omega)
  have hrows : (scan_rows cfg cols st).debouncing = c1 := by
    rw [scan_rows_debouncing, hc1, hmod]
    by_cases hch : ∃ i, i < cfg.MATRIX_ROWS ∧ cols i ≠ st.matrix_debouncing i
    · have hch2 : ∃ i, i < cfg.MATRIX_ROWS ∧ st.matrix_debouncing i ≠ cols i := by
        obtain ⟨i, hi, hne⟩ := hch
        exact ⟨i, hi, fun h => hne h.symm⟩
      rw [if_pos hch, if_pos hch2]
    · have hch2 : ¬ ∃ i, i < cfg.MATRIX_ROWS ∧ st.matrix_debouncing i ≠ cols i := by
        rintro ⟨i, hi, hne⟩
        exact hch ⟨i, hi, fun h => hne h.symm⟩
      rw [if_neg hch, if_neg hch2]
  refine ⟨?_, ?_, ?_, ?_, rfl⟩
  · intro i hi
    rw [matrix_scan_pending, if_pos hi]
  · rw [matrix_scan_debouncing, hrows]
    by_cases hpos : 0 < c1
    · rw [if_pos hpos]
    · rw [if_neg hpos]; omega
  · intro h1 i hi
    rw [matrix_scan_matrix, hrows, if_pos ⟨h1, hi⟩]
  · intro h1 i
    rw [matrix_scan_matrix, hrows, if_neg (fun h => h1 h.1)]

/-- Witness of C11: sweep 1 of the scenario with `DEBOUNCE = 5` (row 2 changes,
`c1 = 5`, the sweep ends with countdown 4). -/
theorem matrix_scan_step_witness :
    (1 ≤ (scenario_cfg 5).DEBOUNCE ∧ (scenario_cfg 5).DEBOUNCE ≤ 255)
      ∧ (5 = if ∃ i, i < (scenario_cfg 5).MATRIX_ROWS
            ∧ one_row 2 1 i ≠ (initial_state (scenario_cfg 5)).matrix_debouncing i
          then (scenario_cfg 5).DEBOUNCE else (initial_state (scenario_cfg 5)).debouncing)
      ∧ ((∀ i, i < (scenario_cfg 5).MATRIX_ROWS →
            (matrix_scan (scenario_cfg 5) (one_row 2 1)
              (initial_state (scenario_cfg 5))).2.matrix_debouncing i = one_row 2 1 i)
        ∧ (matrix_scan (scenario_cfg 5) (one_row 2 1)
            (initial_state (scenario_cfg 5))).2.debouncing = (if 0 < 5 then 5 - 1 else 0)
        ∧ (5 = 1 → ∀ i, i < (scenario_cfg 5).MATRIX_ROWS →
            (matrix_scan (scenario_cfg 5) (one_row 2 1)
              (initial_state (scenario_cfg 5))).2.matrix i = one_row 2 1 i)
        ∧ (5 ≠ 1 → ∀ i, (matrix_scan (scenario_cfg 5) (one_row 2 1)
            (initial_state (scenario_cfg 5))).2.matrix i
              = (initial_state (scenario_cfg 5)).matrix i)
        ∧ (matrix_scan (scenario_cfg 5) (one_row 2 1)
            (initial_state (scenario_cfg 5))).1 = 1) :=
  ⟨by decide, by decide,
    matrix_scan_step (scenario_cfg 5) (by decide) (by decide)
      (initial_state (scenario_cfg 5)) (one_row 2 1) 5 (by decide)⟩

/-- C16: reachable-state invariant.  For every debounce period with
`1 ≤ DEBOUNCE ≤ 255`, in every state reachable from the state at program start
by `matrix_scan` (with arbitrary raw samples) and `matrix_init` in any order,
the countdown is at most `DEBOUNCE`, and whenever the countdown is 0 the stable
buffer equals the pending buffer in every row. -/
theorem reachable_invariant (cfg : Config) (hD1 : 1 ≤ cfg.DEBOUNCE) (hD : cfg.DEBOUNCE ≤ 255)
    (st : State) (hst : Reachable cfg st) :
    st.debouncing ≤ cfg.DEBOUNCE
      ∧ (st.debouncing = 0 →
          ∀ r, r < cfg.MATRIX_ROWS → st.matrix r = st.matrix_debouncing r) := by
  have hmod : cfg.DEBOUNCE % 256 = cfg.DEBOUNCE := Nat.mod_eq_of_lt (by omega)
  induction hst with
  | start =>
    refine ⟨by show cfg.DEBOUNCE % 256 ≤ _; omega, ?_⟩
    intro h0
    have h0e : cfg.DEBOUNCE % 256 = 0 := h0
    omega
  | scan cols t _ ih =>
    obtain ⟨ihc, ihz⟩ := ih
    have hrows := scan_rows_debouncing cfg cols t
    have hdeb := matrix_scan_debouncing cfg cols t
    by_cases hch : ∃ i, i < cfg.MATRIX_ROWS ∧ t.matrix_debouncing i ≠ cols i
    · rw [if_pos hch, hmod] at hrows
      refine ⟨by omega, ?_⟩
      intro h0 r hr
      have h1 : (scan_rows cfg cols t).debouncing = 1 := by omega
      rw [matrix_scan_matrix, if_pos ⟨h1, hr⟩, matrix_scan_pending, if_pos hr]
    · rw [if_neg hch] at hrows
      refine ⟨by omega, ?_⟩
      intro h0 r hr
      have hquiet : t.matrix_debouncing r = cols r := by
        by_contra hne
        exact hch ⟨r, hr, hne⟩
      rw [matrix_scan_pending, if_pos hr, matrix_scan_matrix]
      by_cases h1 : (scan_rows cfg cols t).debouncing = 1
      · rw [if_pos ⟨h1, hr⟩]
      · rw [if_neg (fun h => h1 h.1), ihz (by omega) r hr, hquiet]
  | init t _ ih =>
    refine ⟨?_, ?_⟩
    · show (for_rows init_row cfg.MATRIX_ROWS t).debouncing ≤ _
      rw [for_rows_init_debouncing]; exact ih.1
    · intro _ r hr
      show (for_rows init_row cfg.MATRIX_ROWS t).matrix r
        = (for_rows init_row cfg.MATRIX_ROWS t).matrix_debouncing r
      rw [for_rows_init_matrix, for_rows_init_pending, if_pos hr, if_pos hr]

/-- Witness of C16: the state reached by sweep 1 of the scenario, then
`matrix_init`, then a second sweep. -/
theorem reachable_invariant_witness :
    (1 ≤ (scenario_cfg 5).DEBOUNCE ∧ (scenario_cfg 5).DEBOUNCE ≤ 255)
      ∧ Reachable (scenario_cfg 5)
          (matrix_scan (scenario_cfg 5) (one_row 2 1)
            (matrix_init (scenario_cfg 5)
              (matrix_scan (scenario_cfg 5) (one_row 2 1)
                (initial_state (scenario_cfg 5))).2)).2
      ∧ ((matrix_scan (scenario_cfg 5) (one_row 2 1)
            (matrix_init (scenario_cfg 5)
              (matrix_scan (scenario_cfg 5) (one_row 2 1)
                (initial_state (scenario_cfg 5))).2)).2.debouncing
            ≤ (scenario_cfg 5).DEBOUNCE
        ∧ ((matrix_scan (scenario_cfg 5) (one_row 2 1)
            (matrix_init (scenario_cfg 5)
              (matrix_scan (scenario_cfg 5) (one_row 2 1)
                (initial_state (scenario_cfg 5))).2)).2.debouncing = 0 →
          ∀ r, r < (scenario_cfg 5).MATRIX_ROWS →
            (matrix_scan (scenario_cfg 5) (one_row 2 1)
              (matrix_init (scenario_cfg 5)
                (matrix_scan (scenario_cfg 5) (one_row 2 1)
                  (initial_state (scenario_cfg 5))).2)).2.matrix r
            = (matrix_scan (scenario_cfg 5) (one_row 2 1)
              (matrix_init (scenario_cfg 5)
                (matrix_scan (scenario_cfg 5) (one_row 2 1)
                  (initial_state (scenario_cfg 5))).2)).2.matrix_debouncing r)) :=
  ⟨by decide,
    Reachable.scan _ _ (Reachable.init _ (Reachable.scan _ _ Reachable.start)),
    reachable_invariant (scenario_cfg 5) (by decide) (by decide) _
      (Reachable.scan _ _ (Reachable.init _ (Reachable.scan _ _ Reachable.start)))⟩

/-- C17: a zero debounce period never promotes.  If `DEBOUNCE` is 0, then after
any number of `matrix_scan` calls from the state at program start, whatever the
raw samples, the countdown is 0 and the stable buffer is the initial all-zero
one, so `matrix_is_on` is false everywhere, while the pending buffer holds the
samples of the last sweep. -/
theorem zero_debounce_never_promotes (cfg : Config) (h0 : cfg.DEBOUNCE = 0)
    (s : Nat → Nat → Nat) (n : Nat) :
    (scans cfg s n (initial_state cfg)).debouncing = 0
      ∧ (scans cfg s n (initial_state cfg)).matrix = (initial_state cfg).matrix
      ∧ (1 ≤ n → ∀ r, r < cfg.MATRIX_ROWS →
          (scans cfg s n (initial_state cfg)).matrix_debouncing r = s (n - 1) r)
      ∧ (∀ row col, matrix_is_on (scans cfg s n (initial_state cfg)) row col = false) := by
  have hmod : cfg.DEBOUNCE % 256 = 0 := by rw [h0]
  have hcm : ∀ m, (scans cfg s m (initial_state cfg)).debouncing = 0
      ∧ (scans cfg s m (initial_state cfg)).matrix = (initial_state cfg).matrix := by
    intro m
    induction m with
    | zero => exact ⟨hmod, rfl⟩
    | succ m ih =>
      rw [scans_succ]
      have hrows : (scan_rows cfg (s m) (scans cfg s m (initial_state cfg))).debouncing = 0 := by
        rw [scan_rows_debouncing]
        split
        · exact hmod
        · exact ih.1
      refine ⟨by rw [matrix_scan_debouncing, hrows], ?_⟩
      funext j
      rw [matrix_scan_matrix, hrows, if_neg (by omega), ih.2]
  refine ⟨(hcm n).1, (hcm n).2, ?_, ?_⟩
  · intro hn r hr
    obtain ⟨m, rfl⟩ : ∃ m, n = m + 1 := ⟨n - 1, by omega⟩
    rw [scans_succ, matrix_scan_pending, if_pos hr]
    rfl
  · intro row col
    unfold matrix_is_on
    rw [(hcm n).2]
    show ((0 : Nat) &&& (1 <<< col) != 0) = false
    simp

/-- Witness of C17: the scenario with `DEBOUNCE = 0`, after 7 sweeps in which
row 2 reads `0b01`. -/
theorem zero_debounce_never_promotes_witness :
    (scenario_cfg 0).DEBOUNCE = 0
      ∧ ((scans (scenario_cfg 0) (fun _ => one_row 2 1) 7
            (initial_state (scenario_cfg 0))).debouncing = 0
        ∧ (scans (scenario_cfg 0) (fun _ => one_row 2 1) 7
            (initial_state (scenario_cfg 0))).matrix = (initial_state (scenario_cfg 0)).matrix
        ∧ (1 ≤ 7 → ∀ r, r < (scenario_cfg 0).MATRIX_ROWS →
            (scans (scenario_cfg 0) (fun _ => one_row 2 1) 7
              (initial_state (scenario_cfg 0))).matrix_debouncing r = one_row 2 1 r)
        ∧ (∀ row col, matrix_is_on (scans (scenario_cfg 0) (fun _ => one_row 2 1) 7
            (initial_state (scenario_cfg 0))) row col = false)) :=
  ⟨rfl,
    zero_debounce_never_promotes (scenario_cfg 0) rfl (fun _ => one_row 2 1) 7⟩

/-- C15: exact trace characterisation.  For every debounce period with
`1 ≤ DEBOUNCE ≤ 255` and every sequence of raw sample vectors, after `n` calls
of `matrix_scan` from the state at program start (buffers zero, countdown
`DEBOUNCE`) the stable buffer equals, in every row, the reference debouncer
`reference_stable`: all zero for `n = 0`, the `n`-th sample vector when
`n ≥ DEBOUNCE` and the last `DEBOUNCE` sample vectors are equal, and the
previous stable buffer otherwise. -/
theorem trace_characterisation (cfg : Config) (hD1 : 1 ≤ cfg.DEBOUNCE)
    (hD : cfg.DEBOUNCE ≤ 255) (s : Nat → Nat → Nat) (n r : Nat)
    (hr : r < cfg.MATRIX_ROWS) :
    (scans cfg s n (initial_state cfg)).matrix r = reference_stable cfg s n r :=
  (scans_trace cfg hD1 hD (initial_state cfg) (Nat.mod_eq_of_lt (by omega))
    (fun _ _ => rfl) s n).2.2 r hr

/-- Witness of C15: the bounce scenario with `DEBOUNCE = 5`, row 2, after 9
sweeps; both sides are `0b01`. -/
theorem trace_characterisation_witness :
    (1 ≤ (scenario_cfg 5).DEBOUNCE ∧ (scenario_cfg 5).DEBOUNCE ≤ 255)
      ∧ 2 < (scenario_cfg 5).MATRIX_ROWS
      ∧ reference_stable (scenario_cfg 5) bounce 9 2 = 1
      ∧ (scans (scenario_cfg 5) bounce 9 (initial_state (scenario_cfg 5))).matrix 2
          = reference_stable (scenario_cfg 5) bounce 9 2 :=
  ⟨by decide, by decide, by decide,
    trace_characterisation (scenario_cfg 5) (by decide) (by decide) bounce 9 2 (by decide)⟩

/-! ## Pins -/

theorem select_row_pin (pins : Pins) (row : Nat) (hrow : row < 4) :
    select_row row pins (row_pin row).1 (row_pin row).2
      = { mode := .PAL_MODE_OUTPUT_PUSHPULL, level := false } := by
  interval_cases row <;> simp [select_row, row_pin, palClearPad, palSetPadMode]

theorem select_row_other (pins : Pins) (row : Nat) (port : Port) (pad : Nat)
    (hne : (port, pad) ≠ row_pin row) :
    select_row row pins port pad = pins port pad := by
  have h4 : row = 0 ∨ row = 1 ∨ row = 2 ∨ row = 3 ∨ 4 ≤ row := by omega
  rcases h4 with h | h | h | h | h
  · subst h
    have hn : ¬ (port = .GPIOB ∧ pad = 13) := fun ⟨h1, h2⟩ => hne (by rw [h1, h2]; rfl)
    simp [select_row, palClearPad, palSetPadMode, hn]
  · subst h
    have hn : ¬ (port = .GPIOB ∧ pad = 14) := fun ⟨h1, h2⟩ => hne (by rw [h1, h2]; rfl)
    simp [select_row, palClearPad, palSetPadMode, hn]
  · subst h
    have hn : ¬ (port = .GPIOB ∧ pad = 15) := fun ⟨h1, h2⟩ => hne (by rw [h1, h2]; rfl)
    simp [select_row, palClearPad, palSetPadMode, hn]
  · subst h
    have hn : ¬ (port = .GPIOA ∧ pad = 8) := fun ⟨h1, h2⟩ => hne (by rw [h1, h2]; rfl)
    simp [select_row, palClearPad, palSetPadMode, hn]
  · obtain ⟨k, rfl⟩ : ∃ k, row = k + 4 := ⟨row - 4, by omega⟩
    rfl

theorem select_row_out_of_range (pins : Pins) (row : Nat) (hrow : 4 ≤ row) :
    select_row row pins = pins := by
  obtain ⟨k, rfl⟩ : ∃ k, row = k + 4 := ⟨row - 4, by omega⟩
  rfl

theorem row_pin_injective (i j : Nat) (hi : i < 4) (hj : j < 4) (hne : j ≠ i) :
    row_pin j ≠ row_pin i := by
  interval_cases i <;> interval_cases j <;> simp_all [row_pin]

theorem unselect_rows_mode (pins : Pins) (j : Nat) (hj : j < 4) :
    (unselect_rows pins (row_pin j).1 (row_pin j).2).mode = .PAL_MODE_INPUT := by
  interval_cases j <;> simp [unselect_rows, row_pin, palSetPadMode]

theorem init_cols_row_pin (pins : Pins) (j : Nat) (hj : j < 4) :
    init_cols pins (row_pin j).1 (row_pin j).2 = pins (row_pin j).1 (row_pin j).2 := by
  interval_cases j <;> simp [init_cols, row_pin, palSetPadMode]

theorem LED_mode (board : Board) (pins : Pins) (p : Port) (n : Nat) :
    (LED_ON board pins p n).mode = (pins p n).mode
      ∧ (LED_OFF board pins p n).mode = (pins p n).mode := by
  cases board <;> simp only [LED_ON, LED_OFF, palClearPad, palSetPad] <;>
    constructor <;> split <;> rfl

theorem testBit_term (p : Prop) [Decidable p] (k c : Nat) :
    (if p then 0 else 1 <<< k).testBit c = (!decide p && decide (k = c)) := by
  by_cases hp : p
  · simp [hp]
  · simp [hp, Nat.one_shiftLeft, Nat.testBit_two_pow]

/-- Bit `c` of the value of `read_cols` is the negation of "column pad `c` reads
high", when the row type has at least 12 bits. -/
theorem read_cols_testBit (row_bits : Nat) (hw : 12 ≤ row_bits) (lv : PadLevels) (c : Nat)
    (hc : c < 12) :
    (read_cols row_bits lv).testBit c
      = !decide (lv (col_pin c).1 (col_pin c).2 = PAL_HIGH) := by
  unfold read_cols
  rw [Nat.testBit_mod_two_pow]
  have hcw : c < row_bits := by omega
  simp only [hcw, decide_True, Bool.true_and, Nat.testBit_or, testBit_term]
  interval_cases c <;> simp [col_pin]

theorem read_cols_lt (row_bits : Nat) (lv : PadLevels) : read_cols row_bits lv < 2 ^ 12 := by
  unfold read_cols
  refine lt_of_le_of_lt (Nat.mod_le _ _) ?_
  repeat' apply Nat.or_lt_two_pow
  all_goals (split <;> decide)

/-- C12: active-low column read.  For every assignment of levels to the pads, bit
`c` of the value returned by `read_cols` is 1 if and only if column pad `c`
does not read `PAL_HIGH`, for every `c < 12`, the column pads being C14, C15,
A0, ..., A7, B0, B1 in this order (the row type `matrix_row_t` having at least
the 12 bits of the columns). -/
theorem read_cols_active_low (row_bits : Nat) (hw : 12 ≤ row_bits) (lv : PadLevels)
    (c : Nat) (hc : c < 12) :
    (read_cols row_bits lv / 2 ^ c % 2 = 1 ↔ lv (col_pin c).1 (col_pin c).2 ≠ PAL_HIGH)
      ∧ (List.range 12).map col_pin
          = [(.GPIOC, 14), (.GPIOC, 15), (.GPIOA, 0), (.GPIOA, 1), (.GPIOA, 2), (.GPIOA, 3),
             (.GPIOA, 4), (.GPIOA, 5), (.GPIOA, 6), (.GPIOA, 7), (.GPIOB, 0), (.GPIOB, 1)] := by
  refine ⟨?_, by decide⟩
  have hbit : (read_cols row_bits lv).testBit c = true
      ↔ read_cols row_bits lv / 2 ^ c % 2 = 1 := by
    rw [Nat.testBit_to_div_mod]; simp
  rw [← hbit, read_cols_testBit row_bits hw lv c hc]
  simp

/-- Witness of C12: a 16-bit row type, only column 3 (pad A1) held low; bit 3 of
the value is set. -/
theorem read_cols_active_low_witness :
    (12 : Nat) ≤ 16 ∧ (3 : Nat) < 12
      ∧ levels_of (fun c => c == 3) (col_pin 3).1 (col_pin 3).2 ≠ PAL_HIGH
      ∧ read_cols 16 (levels_of (fun c => c == 3)) = 8
      ∧ (read_cols 16 (levels_of (fun c => c == 3)) / 2 ^ 3 % 2 = 1
          ↔ levels_of (fun c => c == 3) (col_pin 3).1 (col_pin 3).2 ≠ PAL_HIGH) :=
  ⟨by decide, by decide, by decide, by decide,
    (read_cols_active_low 16 (by decide) (levels_of (fun c => c == 3)) 3 (by decide)).1⟩

/-- C13: row selection frame.  For every pad configuration and every `row < 4`,
`select_row(row)` makes the pad of that row (B13, B14, B15, A8 for the rows 0,
1, 2, 3) a push-pull output with a low level and leaves the mode and level of
every other pad unchanged; for every `row ≥ 4` it leaves the whole pad
configuration unchanged. -/
theorem select_row_frame (pins : Pins) (row : Nat) :
    (row < 4 →
        select_row row pins (row_pin row).1 (row_pin row).2
            = { mode := .PAL_MODE_OUTPUT_PUSHPULL, level := false }
          ∧ ∀ port pad, (port, pad) ≠ row_pin row →
              select_row row pins port pad = pins port pad)
      ∧ (4 ≤ row → select_row row pins = pins)
      ∧ (List.range 4).map row_pin
          = [(.GPIOB, 13), (.GPIOB, 14), (.GPIOB, 15), (.GPIOA, 8)] :=
  ⟨fun hrow => ⟨select_row_pin pins row hrow,
      fun port pad hne => select_row_other pins row port pad hne⟩,
    fun hrow => select_row_out_of_range pins row hrow, by decide⟩

/-- Witness of C13: row 2 (pad B15) and the out-of-range row 7, from the
configuration in which every pad is a floating input. -/
theorem select_row_frame_witness :
    ((2 : Nat) < 4 ∧ (4 : Nat) ≤ 7)
      ∧ (select_row 2 floating_pins .GPIOB 15
          = { mode := .PAL_MODE_OUTPUT_PUSHPULL, level := false })
      ∧ (∀ port pad, (port, pad) ≠ row_pin 2 →
          select_row 2 floating_pins port pad = floating_pins port pad)
      ∧ select_row 7 floating_pins = floating_pins :=
  ⟨by decide, ((select_row_frame floating_pins 2).1 (by decide)).1,
    ((select_row_frame floating_pins 2).1 (by decide)).2,
    (select_row_frame floating_pins 7).2.1 (by decide)⟩

theorem for_each_row_succ {α : Type} (body : Nat → α → α) (n : Nat) (a : α) :
    for_each_row body (n + 1) a = body n (for_each_row body n a) :=
  rfl

/-- The engine state after the sampling loop with the pads is the one of the
sampling loop on the engine state alone, with the values of `read_cols` as
samples. -/
theorem for_each_row_scan_st (cfg : Config) (row_bits : Nat) (lv : Nat → PadLevels)
    (n : Nat) (h : Hw) :
    (for_each_row (scan_row_hw cfg row_bits lv) n h).st
      = for_rows (scan_row cfg (fun k => read_cols row_bits (lv k))) n h.st := by
  induction n with
  | zero => rfl
  | succ n ih =>
    show scan_row cfg (fun k => read_cols row_bits (lv k)) n
        (for_each_row (scan_row_hw cfg row_bits lv) n h).st = _
    rw [ih]; rfl

/-- The engine state after `matrix_scan` with the pads is the one of
`matrix_scan` on the engine state alone. -/
theorem matrix_scan_hw_st (cfg : Config) (row_bits : Nat) (lv : Nat → PadLevels) (h : Hw) :
    (matrix_scan_hw cfg row_bits lv h).2.st
      = (matrix_scan cfg (fun k => read_cols row_bits (lv k)) h.st).2 := by
  show debounce_step cfg (for_each_row (scan_row_hw cfg row_bits lv) cfg.MATRIX_ROWS h).st = _
  rw [for_each_row_scan_st]; rfl

/-- The pads during the sampling loop over the first `n` rows, entered with the
four row pads floating: one pad configuration is recorded per row; at the read
of row `i` the pad of row `i` is a low push-pull output and the other row pads
are floating inputs; after the loop the four row pads are floating inputs. -/
theorem for_each_row_scan_pins (cfg : Config) (row_bits : Nat) (lv : Nat → PadLevels)
    (h : Hw)
    (hfloat : ∀ j, j < 4 → (h.pins (row_pin j).1 (row_pin j).2).mode = .PAL_MODE_INPUT)
    (n : Nat) :
    (for_each_row (scan_row_hw cfg row_bits lv) n h).reads.length = h.reads.length + n
      ∧ (∀ j, j < 4 →
          ((for_each_row (scan_row_hw cfg row_bits lv) n h).pins
            (row_pin j).1 (row_pin j).2).mode = .PAL_MODE_INPUT)
      ∧ (∀ i, i < n → ∃ p,
          (for_each_row (scan_row_hw cfg row_bits lv) n h).reads[h.reads.length + i]? = some p
            ∧ (i < 4 → p (row_pin i).1 (row_pin i).2
                = { mode := .PAL_MODE_OUTPUT_PUSHPULL, level := false })
            ∧ (∀ j, j < 4 → j ≠ i →
                (p (row_pin j).1 (row_pin j).2).mode = .PAL_MODE_INPUT)) := by
  induction n with
  | zero =>
    refine ⟨rfl, hfloat, ?_⟩
    intro i hi
    omega
  | succ n ih =>
    obtain ⟨hlen, hfl, hreads⟩ := ih
    rw [for_each_row_succ]
    generalize for_each_row (scan_row_hw cfg row_bits lv) n h = H at hlen hfl hreads ⊢
    show (H.reads ++ [select_row n H.pins]).length = h.reads.length + (n + 1)
      ∧ (∀ j, j < 4 →
          (unselect_rows (select_row n H.pins) (row_pin j).1 (row_pin j).2).mode
            = .PAL_MODE_INPUT)
      ∧ (∀ i, i < n + 1 → ∃ p,
          (H.reads ++ [select_row n H.pins])[h.reads.length + i]? = some p
            ∧ (i < 4 → p (row_pin i).1 (row_pin i).2
                = { mode := .PAL_MODE_OUTPUT_PUSHPULL, level := false })
            ∧ (∀ j, j < 4 → j ≠ i →
                (p (row_pin j).1 (row_pin j).2).mode = .PAL_MODE_INPUT))
    refine ⟨?_, ?_, ?_⟩
    · rw [List.length_append, hlen]; rfl
    · intro j hj
      exact unselect_rows_mode _ j hj
    · intro i hi
      by_cases hin : i < n
      · obtain ⟨p, hp, hP⟩ := hreads i hin
        refine ⟨p, ?_, hP⟩
        rw [List.getElem?_append_left (by omega)]
        exact hp
      · have hieq : i = n := by omega
        subst hieq
        refine ⟨select_row i H.pins, ?_, ?_, ?_⟩
        · rw [List.getElem?_append_right (by omega)]
          have hz : h.reads.length + i - H.reads.length = 0 := by omega
          rw [hz]; rfl
        · intro hi4
          exact select_row_pin H.pins i hi4
        · intro j hj hji
          by_cases hi4 : i < 4
          · have hne : ((row_pin j).1, (row_pin j).2) ≠ row_pin i :=
              row_pin_injective i j hi4 hj hji
            rw [select_row_other H.pins i (row_pin j).1 (row_pin j).2 hne]
            exact hfl j hj
          · rw [select_row_out_of_range H.pins i (by omega)]
            exact hfl j hj

/-- C14: one row active at a time.  For every `matrix_scan` entered with the four
row pads floating, a pad configuration is recorded at the read of the columns
of every row `i < MATRIX_ROWS`; in it the pad of row `i` (one of the rows 0 to 3
that have a pad) is a push-pull output with a low level and every other row pad
is a floating input.  When `matrix_scan` returns the four row pads are floating
inputs again, and so they are after `matrix_init`. -/
theorem one_row_active (cfg : Config) (row_bits : Nat) (lv : Nat → PadLevels) (h : Hw)
    (hfloat : ∀ j, j < 4 → (h.pins (row_pin j).1 (row_pin j).2).mode = .PAL_MODE_INPUT) :
    (matrix_scan_hw cfg row_bits lv h).2.reads.length = h.reads.length + cfg.MATRIX_ROWS
      ∧ (∀ i, i < cfg.MATRIX_ROWS → ∃ p,
          (matrix_scan_hw cfg row_bits lv h).2.reads[h.reads.length + i]? = some p
            ∧ (i < 4 → p (row_pin i).1 (row_pin i).2
                = { mode := .PAL_MODE_OUTPUT_PUSHPULL, level := false })
            ∧ (∀ j, j < 4 → j ≠ i →
                (p (row_pin j).1 (row_pin j).2).mode = .PAL_MODE_INPUT))
      ∧ (∀ j, j < 4 →
          ((matrix_scan_hw cfg row_bits lv h).2.pins (row_pin j).1 (row_pin j).2).mode
            = .PAL_MODE_INPUT)
      ∧ (∀ (board : Board) (h0 : Hw) (j : Nat), j < 4 →
          ((matrix_init_hw cfg board h0).pins (row_pin j).1 (row_pin j).2).mode
            = .PAL_MODE_INPUT) := by
  obtain ⟨hlen, hfl, hreads⟩ :=
    for_each_row_scan_pins cfg row_bits lv h hfloat cfg.MATRIX_ROWS
  refine ⟨hlen, hreads, hfl, ?_⟩
  intro board h0 j hj
  show (LED_OFF board (LED_ON board (init_cols (unselect_rows h0.pins)))
    (row_pin j).1 (row_pin j).2).mode = .PAL_MODE_INPUT
  rw [(LED_mode board _ _ _).2, (LED_mode board _ _ _).1, init_cols_row_pin _ j hj]
  exact unselect_rows_mode _ j hj

/-- Witness of C14: a sweep with 4 rows entered from the configuration in which
every pad is a floating input; at the read of row 2 the pad B15 is a low
push-pull output and B13, B14, A8 are floating inputs. -/
theorem one_row_active_witness :
    (∀ j, j < 4 → (floating_pins (row_pin j).1 (row_pin j).2).mode = .PAL_MODE_INPUT)
      ∧ (matrix_scan_hw (scenario_cfg 5) 16 (fun _ => levels_of (fun c => c == 0))
          { st := initial_state (scenario_cfg 5), pins := floating_pins, reads := [] }).2.reads.length
          = 0 + (scenario_cfg 5).MATRIX_ROWS
      ∧ (∃ p,
          (matrix_scan_hw (scenario_cfg 5) 16 (fun _ => levels_of (fun c => c == 0))
            { st := initial_state (scenario_cfg 5), pins := floating_pins,
              reads := [] }).2.reads[0 + 2]? = some p
            ∧ (2 < 4 → p (row_pin 2).1 (row_pin 2).2
                = { mode := .PAL_MODE_OUTPUT_PUSHPULL, level := false })
            ∧ (∀ j, j < 4 → j ≠ 2 →
                (p (row_pin j).1 (row_pin j).2).mode = .PAL_MODE_INPUT)) :=
  ⟨fun _ _ => rfl,
    (one_row_active (scenario_cfg 5) 16 (fun _ => levels_of (fun c => c == 0))
      { st := initial_state (scenario_cfg 5), pins := floating_pins, reads := [] }
      (fun _ _ => rfl)).1,
    (one_row_active (scenario_cfg 5) 16 (fun _ => levels_of (fun c => c == 0))
      { st := initial_state (scenario_cfg 5), pins := floating_pins, reads := [] }
      (fun _ _ => rfl)).2.1 2 (by decide)⟩

/-- C18: row values stay within the column width.  `read_cols` always returns a
value below `2 ^ 12`; hence in every state reachable from the state at program
start by `matrix_scan` (reading through `read_cols`) and `matrix_init`, every
row of the pending buffer and of the stable buffer is below `2 ^ 12`, and
`matrix_is_on(row, col)` is false for every `col ≥ 12` within the width of the
row type. -/
theorem rows_within_columns (cfg : Config) (row_bits : Nat) (st : State)
    (hst : ReachableRead cfg row_bits st) :
    (∀ lv, read_cols row_bits lv < 2 ^ 12)
      ∧ (∀ r, st.matrix_debouncing r < 2 ^ 12 ∧ st.matrix r < 2 ^ 12)
      ∧ (∀ row col, 12 ≤ col → col < row_bits → matrix_is_on st row col = false) := by
  have hrows : ∀ r, st.matrix_debouncing r < 2 ^ 12 ∧ st.matrix r < 2 ^ 12 := by
    induction hst with
    | start =>
      intro r
      exact ⟨by show (0 : Nat) < 2 ^ 12; decide, by show (0 : Nat) < 2 ^ 12; decide⟩
    | scan lv t _ ih =>
      intro r
      refine ⟨?_, ?_⟩
      · rw [matrix_scan_pending]
        split
        · exact read_cols_lt row_bits (lv r)
        · exact (ih r).1
      · rw [matrix_scan_matrix]
        split
        · exact read_cols_lt row_bits (lv r)
        · exact (ih r).2
    | init t _ ih =>
      intro r
      refine ⟨?_, ?_⟩
      · show (for_rows init_row cfg.MATRIX_ROWS t).matrix_debouncing r < 2 ^ 12
        rw [for_rows_init_pending]
        split
        · decide
        · exact (ih r).1
      · show (for_rows init_row cfg.MATRIX_ROWS t).matrix r < 2 ^ 12
        rw [for_rows_init_matrix]
        split
        · decide
        · exact (ih r).2
  refine ⟨read_cols_lt row_bits, hrows, ?_⟩
  intro row col hcol _
  have hlt : st.matrix row < 2 ^ col :=
    lt_of_lt_of_le (hrows row).2 (Nat.pow_le_pow_right (by decide) hcol)
  rw [Bool.eq_false_iff]
  intro hon
  have hbit := (and_shift_ne_zero_iff (st.matrix row) col).1 hon
  rw [Nat.div_eq_of_lt hlt] at hbit
  omega

/-- Witness of C18: a 16-bit row type, the state after one sweep in which every
column pad reads low in every row (each raw sample is `0xFFF`). -/
theorem rows_within_columns_witness :
    ReachableRead (scenario_cfg 1) 16
        (matrix_scan (scenario_cfg 1)
          (fun i => read_cols 16 ((fun _ => levels_of (fun _ => true)) i))
          (initial_state (scenario_cfg 1))).2
      ∧ (matrix_scan (scenario_cfg 1)
          (fun i => read_cols 16 ((fun _ => levels_of (fun _ => true)) i))
          (initial_state (scenario_cfg 1))).2.matrix 2 = 4095
      ∧ ((12 : Nat) ≤ 13 ∧ (13 : Nat) < 16)
      ∧ matrix_is_on (matrix_scan (scenario_cfg 1)
          (fun i => read_cols 16 ((fun _ => levels_of (fun _ => true)) i))
          (initial_state (scenario_cfg 1))).2 2 13 = false :=
  ⟨ReachableRead.scan _ _ ReachableRead.start, by decide, by decide,
    (rows_within_columns (scenario_cfg 1) 16 _
      (ReachableRead.scan (fun _ => levels_of (fun _ => true)) _ ReachableRead.start)).2.2
      2 13 (by decide) (by decide)⟩

end Planck
